import Mathlib

/-!
Verification of the places history-storage core
(`src/components/places/src/storage.rs`).

The Rust module is shallowly embedded: the SQLite tables `moz_places` and
`moz_historyvisits` become lists of records inside a `DB` value, every SQL
statement of the module becomes an explicit transformation of that value, and
the fallible paths return `Except Failure`.  `Failure.err` models a typed
`Err(...)` propagated with `?`; `Failure.abort` models a Rust process abort
(`expect`/`unwrap` on an error or on a missing value) — aborts also unwind out
of `apply_observation`, dropping (rolling back) the open transaction, which is
why they travel in the same channel, but they are never a typed error value
seen by the caller.

External collaborators that live outside this module (url hash, guid
generator, frecency calculator, the current clock) are bundled in an `Env` and
quantified over in the theorems.  Parts of the repository that the module uses
but whose source is not part of this crate's storage layer (the observation
type, the schema triggers maintaining denormalized counts) are modelled from
the specification and marked as such on their doc comments.
-/

namespace Places

/-- Visit transition kinds.  Modelled from the spec: the `VisitTransition`
enum lives in the `types` crate, not in this module; the spec names
link-followed, typed and redirect kinds, plus framework-internal kinds
(embed / framed link) that are always policy-hidden. -/
inductive VisitTransition where
  | link
  | typed
  | bookmark
  | embed
  | redirectPermanent
  | redirectTemporary
  | download
  | framedLink
  | reload
deriving DecidableEq, Repr

/-- One row of `moz_places`, merged with the in-memory `PageInfo` view of it
(`PageInfo::from_row` reads a NULL title back as `""`, and nothing in this
module can distinguish a NULL title from an empty one, so `title` is a plain
`String` defaulting to `""`).  `visit_count_*` / `last_visit_date_*` are the
denormalized columns maintained by the storage layer's triggers. -/
structure Page where
  id : Nat
  guid : String
  url : String
  url_hash : Int
  title : String
  hidden : Bool
  typed : Nat
  frecency : Int
  visit_count_local : Nat
  visit_count_remote : Nat
  last_visit_date_local : Nat
  last_visit_date_remote : Nat
deriving DecidableEq, Repr

/-- One row of `moz_historyvisits`. -/
structure Visit where
  id : Nat
  place_id : Nat
  from_visit : Option Nat
  visit_date : Nat
  visit_type : VisitTransition
  is_local : Bool
deriving DecidableEq, Repr

/-- The mutable store: both tables plus SQLite's per-table rowid counters and
the number of guids consumed from the generator so far (so that a run of the
pipeline is deterministic relative to an `Env`). -/
structure DB where
  pages : List Page
  visits : List Visit
  next_page_rowid : Nat
  next_visit_rowid : Nat
  guids_used : Nat
deriving DecidableEq, Repr

/-- The abstract error kinds of the crate's error type (spec section 7). -/
inductive PlacesErrorKind where
  | invalidUrl
  | storageFailure
  | notADatabase
  | collaboratorFailure
deriving DecidableEq, Repr

/-- Outcome channel of a fallible operation.  `err` is a typed `Err` value
returned to the caller; `abort` is a Rust `expect`-style process abort (it
also leaves any open transaction uncommitted, but no caller receives it as a
value). -/
inductive Failure where
  | err (kind : PlacesErrorKind)
  | abort (msg : String)
deriving DecidableEq, Repr

/-- Modelled from the spec: `VisitObservation` (module `observation`, not part
of this source tree) — one navigation event: required url, optional title,
optional visit type (absence = metadata-only update), optional timestamp,
optional remoteness, optional error flag, plus an explicit hidden flag that
the derived hidden policy consults. -/
structure VisitObservation where
  url : String
  title : Option String := none
  visit_type : Option VisitTransition := none
  at_ : Option Nat := none
  is_remote : Option Bool := none
  is_error : Option Bool := none
  is_hidden_flag : Option Bool := none
deriving DecidableEq, Repr

/-- Modelled from the spec: the derived hidden policy — framework-internal
transition kinds (embed, framed link) are always hidden regardless of the
flag; otherwise the observation's flag decides. -/
def VisitObservation.get_is_hidden (ob : VisitObservation) : Bool :=
  match ob.visit_type with
  | some t => t == VisitTransition.embed || t == VisitTransition.framedLink
      || ob.is_hidden_flag.getD false
  | none => ob.is_hidden_flag.getD false

/-- Modelled from the spec: the redirect boost handed to the frecency
collaborator is derived from the transition kind being a redirect. -/
def VisitObservation.get_redirect_frecency_boost (ob : VisitObservation) : Bool :=
  match ob.visit_type with
  | some t => t == VisitTransition.redirectPermanent
      || t == VisitTransition.redirectTemporary
  | none => false

/-- The collaborators of the module, quantified over in every theorem:
the `hash()` SQL function / `hash::hash_url`, the guid generator
(`none` = the generator reported an error), the frecency calculator
(reading the current store), and the clock used by `Timestamp::now()`. -/
structure Env where
  hash : String → Int
  guids : Nat → Option String
  frecency : DB → Nat → Bool → Except Failure Int
  now : Nat

/-- The row condition `url_hash = hash(:page_url) AND url = :page_url` used by
both the page lookup and the `get_visited` join: index acceleration by hash,
confirmed by exact string equality. -/
def url_row_match (env : Env) (url : String) (p : Page) : Bool :=
  p.url_hash == env.hash url && p.url == url

/-- Propositional equality on `Except` outcomes is decidable, so concrete
runs can be checked by evaluation. -/
instance instDecEqExcept {ε α : Type} [DecidableEq ε] [DecidableEq α] :
    DecidableEq (Except ε α) := fun x y =>
  match x, y with
  | Except.ok a, Except.ok b =>
    if h : a = b then Decidable.isTrue (by rw [h])
    else Decidable.isFalse (fun hx => h (Except.ok.inj hx))
  | Except.error a, Except.error b =>
    if h : a = b then Decidable.isTrue (by rw [h])
    else Decidable.isFalse (fun hx => h (Except.error.inj hx))
  | Except.ok _, Except.error _ => Decidable.isFalse (fun hx => Except.noConfusion hx)
  | Except.error _, Except.ok _ => Decidable.isFalse (fun hx => Except.noConfusion hx)

/-- The `WHERE url_hash = hash(:page_url) AND url = :page_url` row lookup. -/
def find_page (env : Env) (db : DB) (url : String) : Option Page :=
  db.pages.find? (url_row_match env url)

/-- The scalar subquery of `fetch_page_info`: the id of the first visit of the
page whose date equals the page's local or remote last-visit date. -/
def last_visit_id_of (db : DB) (p : Page) : Option Nat :=
  (db.visits.find? fun v =>
    v.place_id == p.id &&
      (v.visit_date == p.last_visit_date_local ||
       v.visit_date == p.last_visit_date_remote)).map (fun v => v.id)

/-- What `fetch_page_info` yields: the page plus `last_visit_id`. -/
structure FetchedPageInfo where
  page : Page
  last_visit_id : Nat
deriving DecidableEq, Repr

/-- The lookup `fetch_page_info`: no matching page row gives `none`; a matching page row
whose `last_visit_id` column is NULL hits the
`.expect("No visit id!")` in `FetchedPageInfo::from_row`, an abort. -/
def fetch_page_info (env : Env) (db : DB) (url : String) :
    Except Failure (Option FetchedPageInfo) :=
  match find_page env db url with
  | none => Except.ok none
  | some p =>
    match last_visit_id_of db p with
    | some vid => Except.ok (some ⟨p, vid⟩)
    | none => Except.error (Failure.abort "No visit id!")

/-- Modelled from the spec: the schema triggers (storage layer, outside this
module) maintain the denormalized per-locality visit count and max visit
date of a page when a visit row is inserted. -/
def Page.applyVisitTrigger (p : Page) (date : Nat) (is_local : Bool) : Page :=
  if is_local then
    { p with visit_count_local := p.visit_count_local + 1,
             last_visit_date_local := max p.last_visit_date_local date }
  else
    { p with visit_count_remote := p.visit_count_remote + 1,
             last_visit_date_remote := max p.last_visit_date_remote date }

/-- The helper `add_visit`: INSERT one row into `moz_historyvisits` and return
`last_insert_rowid()`; the insert fires the triggers on the owning page. -/
def add_visit (db : DB) (page_id : Nat) (from_visit : Option Nat)
    (visit_date : Nat) (visit_type : VisitTransition) (is_local : Bool) :
    DB × Nat :=
  let vid := db.next_visit_rowid
  let v : Visit := ⟨vid, page_id, from_visit, visit_date, visit_type, is_local⟩
  ({ db with
      visits := db.visits ++ [v],
      next_visit_rowid := vid + 1,
      pages := db.pages.map fun p =>
        if p.id = page_id then p.applyVisitTrigger visit_date is_local else p },
   vid)

/-- The abort message of the `.expect` on `random_guid()` in `new_page_info`. -/
def guidExpectMsg : String := "according to logins-sql, this is fine :)"

/-- The helper `new_page_info`: draw a guid from the generator — an error from it is hit
by `.expect(...)`, an abort — then INSERT the page row (only guid, url and
url_hash are set by the statement; the remaining columns take the schema
defaults, which the spec fixes as hidden = true, typed = 0, frecency = -1,
zeroed counts and dates, NULL title) and return the in-memory `PageInfo`. -/
def new_page_info (env : Env) (db : DB) (url : String) :
    Except Failure (DB × Page) :=
  match env.guids db.guids_used with
  | none => Except.error (Failure.abort guidExpectMsg)
  | some guid =>
    let pid := db.next_page_rowid
    let row : Page :=
      { id := pid, guid := guid, url := url, url_hash := env.hash url,
        title := "", hidden := true, typed := 0, frecency := -1,
        visit_count_local := 0, visit_count_remote := 0,
        last_visit_date_local := 0, last_visit_date_remote := 0 }
    Except.ok
      ({ db with
          pages := db.pages ++ [row],
          next_page_rowid := pid + 1,
          guids_used := db.guids_used + 1 },
       row)

/-- The staged column updates of `apply_observation_direct`: the `updates`
vector can only ever hold the three columns below (each at most once), so it
is modelled as one optional value per column. -/
structure StagedUpdates where
  title : Option String := none
  hidden : Option Bool := none
  typed : Option Nat := none
deriving DecidableEq, Repr

/-- The test `updates.len() == 0`. -/
def StagedUpdates.isEmpty (u : StagedUpdates) : Bool :=
  u.title.isNone && u.hidden.isNone && u.typed.isNone

/-- Effect of the single batched `UPDATE moz_places SET ...` on the page row:
each staged column is overwritten, the rest keep their values. -/
def applyStaged (u : StagedUpdates) (p : Page) : Page :=
  { p with
      title := u.title.getD p.title,
      hidden := u.hidden.getD p.hidden,
      typed := u.typed.getD p.typed }

/-- An `UPDATE ... WHERE id = :row_id` against the pages table. -/
def DB.updatePage (db : DB) (rowId : Nat) (f : Page → Page) : DB :=
  { db with pages := db.pages.map fun p => if p.id = rowId then f p else p }

/-- Lines 137–140 of the Rust body: when the observation carries a title,
overwrite the in-memory title and stage the `title` column. -/
def stage_title (ob : VisitObservation) (pi0 : Page) : Page × StagedUpdates :=
  match ob.title with
  | some t => ({ pi0 with title := t }, { title := some t })
  | none => (pi0, {})

/-- Lines 148–151: a single non-hidden visit stages `hidden = false`. -/
def stage_hidden (ob : VisitObservation) (u : StagedUpdates) : StagedUpdates :=
  if ob.get_is_hidden then u else { u with hidden := some false }

/-- Lines 152–155: a typed transition increments and stages `typed`. -/
def stage_typed (visit_type : VisitTransition) (pi : Page) (u : StagedUpdates) :
    Page × StagedUpdates :=
  if visit_type = VisitTransition.typed then
    ({ pi with typed := pi.typed + 1 }, { u with typed := some (pi.typed + 1) })
  else (pi, u)

/-- Lines 169–181: when any column was staged, execute the single batched
`UPDATE moz_places SET ... WHERE id == :row_id`. -/
def run_staged_update (db : DB) (pid : Nat) (u : StagedUpdates) : DB :=
  if u.isEmpty then db else db.updatePage pid (applyStaged u)

/-- Steps 2–5 of `apply_observation_direct`, starting from the resolved page
`pi0` and the store `db0` as it stands after page resolution: stage the
title, and — when a visit type is present — stage hidden/typed, insert the
visit, and decide whether frecency needs recomputation; finally execute the
batched `UPDATE` if any column was staged.  This stretch of the Rust body
issues no fallible call, so it is a pure function of the store.  Returns the
store after those steps, the in-memory page info, the `update_frecency` flag
and the new visit's rowid. -/
def apply_obs_staged (env : Env) (db0 : DB) (ob : VisitObservation)
    (pi0 : Page) : DB × Page × Bool × Option Nat :=
  let s0 := stage_title ob pi0
  match ob.visit_type with
  | some visit_type =>
    let u2 := stage_hidden ob s0.2
    let s1 := stage_typed visit_type s0.1 u2
    let inserted := add_visit db0 s1.1.id none (ob.at_.getD env.now) visit_type
      (!(ob.is_remote.getD false))
    let db2 := run_staged_update inserted.1 s1.1.id s1.2
    (db2, s1.1, !(ob.is_error.getD false), some inserted.2)
  | none =>
    let db2 := run_staged_update db0 s0.1.id s0.2
    (db2, s0.1, false, none)

/-- Steps 1–5 of `apply_observation_direct`: resolve the page (lookup by url,
create when absent), then run the pure tail `apply_obs_staged`. -/
def apply_obs_core (env : Env) (db : DB) (ob : VisitObservation) :
    Except Failure (DB × Page × Bool × Option Nat) :=
  match fetch_page_info env db ob.url with
  | Except.error e => Except.error e
  | Except.ok (some info) => Except.ok (apply_obs_staged env db ob info.page)
  | Except.ok none =>
    match new_page_info env db ob.url with
    | Except.error e => Except.error e
    | Except.ok (db0, pi0) => Except.ok (apply_obs_staged env db0 ob pi0)

/-- The pipeline `apply_observation_direct`: steps 1–5 and then, when flagged, the frecency
phase — call the collaborator on the store as left by step 5 and persist the
returned score with a second, separate `UPDATE`.  The first component is the
state of the connection when the function returns (on an error after step 5
the earlier writes are still present on the connection — only the enclosing
transaction can undo them). -/
def apply_observation_direct (env : Env) (db : DB) (ob : VisitObservation) :
    DB × Except Failure (Option Nat) :=
  match apply_obs_core env db ob with
  | Except.error e => (db, Except.error e)
  | Except.ok (db2, pi, updateFrec, visitRowId) =>
    if updateFrec then
      match env.frecency db2 pi.id ob.get_redirect_frecency_boost with
      | Except.error e => (db2, Except.error e)
      | Except.ok score =>
        (db2.updatePage pi.id (fun p => { p with frecency := score }),
         Except.ok visitRowId)
    else (db2, Except.ok visitRowId)

/-- The entry point `apply_observation`: run `apply_observation_direct` inside one
transaction; commit on success, roll every write back on any failure. -/
def apply_observation (env : Env) (db : DB) (ob : VisitObservation) :
    DB × Except Failure (Option Nat) :=
  let r := apply_observation_direct env db ob
  match r.2 with
  | Except.ok v => (r.1, Except.ok v)
  | Except.error e => (db, Except.error e)

/-- Apply a whole list of observations in order, threading the store; the
boolean records whether every call returned `Ok`. -/
def apply_observations (env : Env) : DB → List VisitObservation → DB × Bool
  | db, [] => (db, true)
  | db, ob :: rest =>
    let step := apply_observation env db ob
    let restR := apply_observations env step.1 rest
    (restR.1, step.2.isOk && restR.2)

/-- Does any page row match this url by hash and exact string equality?
(The join condition of `get_visited`.) -/
def page_match (env : Env) (db : DB) (url : String) : Bool :=
  db.pages.any (url_row_match env url)

/-- One chunk of `get_visited`: for each url of the chunk (whose absolute
positions start at `offset`), the derived-table join yields the index of
every url matching a page row, and those indices are set to true in the
result vector. -/
def mark_chunk (env : Env) (db : DB) : Nat → List String → List Bool → List Bool
  | _, [], result => result
  | offset, url :: rest, result =>
    mark_chunk env db (offset + 1) rest
      (if page_match env db url then result.set offset true else result)

/-- Split a list into chunks of `n` (the engine's parameter-limit bound);
`n = 0` is degenerate and yields no chunks. -/
def chunksOf (n : Nat) (l : List α) : List (List α) :=
  if l.isEmpty || n == 0 then [] else l.take n :: chunksOf n (l.drop n)
termination_by l.length
decreasing_by
  rename_i h
  simp only [Bool.or_eq_true, List.isEmpty_eq_true, beq_iff_eq, not_or] at h
  have hlen : 0 < l.length := List.length_pos.mpr h.1
  rw [List.length_drop]
  omega

/-- The chunk loop of `get_visited` (`each_chunk_mapped`): each chunk is
processed against the store with its running offset. -/
def get_visited_go (env : Env) (db : DB) :
    Nat → List (List String) → List Bool → List Bool
  | _, [], result => result
  | offset, c :: cs, result =>
    get_visited_go env db (offset + c.length) cs (mark_chunk env db offset c result)

/-- The batch query `get_visited`: start from an all-false vector of the input's length and
mark the matched indices chunk by chunk.  `csize` is the chunk bound (999 in
the binary; kept as a parameter to cover every split). -/
def get_visited (env : Env) (db : DB) (urls : List String) (csize : Nat) :
    List Bool :=
  get_visited_go env db 0 (chunksOf csize urls)
    (List.replicate urls.length false)

/-- The EXISTS subquery of `get_visited_urls`: a visit of this page with
`visit_date BETWEEN start AND end`, local-only unless `include_remote`. -/
def visit_in_range (start_ end_ : Nat) (include_remote : Bool) (pid : Nat)
    (v : Visit) : Bool :=
  v.place_id == pid && (start_ ≤ v.visit_date && v.visit_date ≤ end_) &&
    (include_remote || v.is_local)

/-- The range query `get_visited_urls`: the urls of the pages having at least one visit in
the inclusive range, restricted to local visits unless `include_remote`. -/
def get_visited_urls (db : DB) (start_ end_ : Nat) (include_remote : Bool) :
    List String :=
  (db.pages.filter fun p =>
    db.visits.any (visit_in_range start_ end_ include_remote p.id)).map
    (fun p => p.url)

/-! ### Concrete fixtures used by witnesses and counterexamples -/

/-- A concrete collaborator environment: hash by string length, an infallible
guid generator, a frecency score of `100 + page id`, clock at 1000. -/
def env0 : Env :=
  { hash := fun s => (s.length : Int),
    guids := fun n => some (String.mk (List.replicate (n + 1) 'g')),
    frecency := fun _ pid _ => Except.ok (100 + (pid : Int)),
    now := 1000 }

/-- The same environment with a guid generator that always fails. -/
def envGuidFail : Env := { env0 with guids := fun _ => none }

/-- An empty store, rowid counters at 1 as in a fresh SQLite database. -/
def db0 : DB :=
  { pages := [], visits := [], next_page_rowid := 1, next_visit_rowid := 1,
    guids_used := 0 }

/-- A metadata-only observation (title, no visit type). -/
def obMeta : VisitObservation := { url := "https://e.com/", title := some "A" }

/-- A plain link visit carrying a title. -/
def obVisit : VisitObservation :=
  { url := "https://e.com/", title := some "B",
    visit_type := some VisitTransition.link }

/-- A second link visit carrying a different title. -/
def obVisitSecond : VisitObservation :=
  { url := "https://e.com/", title := some "BB",
    visit_type := some VisitTransition.link }

/-- A remote link visit at time 100. -/
def obRemoteVisit : VisitObservation :=
  { url := "https://e.com/", visit_type := some VisitTransition.link,
    at_ := some 100, is_remote := some true }

/-- A link visit flagged as an error. -/
def obErrorVisit : VisitObservation :=
  { url := "https://e.com/", visit_type := some VisitTransition.link,
    is_error := some true }

/-! ### Structural helper lemmas -/

theorem updatePage_pages (db : DB) (i : Nat) (f : Page → Page) :
    (db.updatePage i f).pages = db.pages.map fun p => if p.id = i then f p else p :=
  rfl

theorem updatePage_visits (db : DB) (i : Nat) (f : Page → Page) :
    (db.updatePage i f).visits = db.visits :=
  rfl

theorem add_visit_pages (db : DB) (pid : Nat) (fv : Option Nat) (d : Nat)
    (vt : VisitTransition) (loc : Bool) :
    (add_visit db pid fv d vt loc).1.pages =
      db.pages.map fun p => if p.id = pid then p.applyVisitTrigger d loc else p :=
  rfl

theorem add_visit_visits (db : DB) (pid : Nat) (fv : Option Nat) (d : Nat)
    (vt : VisitTransition) (loc : Bool) :
    (add_visit db pid fv d vt loc).1.visits =
      db.visits ++ [⟨db.next_visit_rowid, pid, fv, d, vt, loc⟩] :=
  rfl

theorem add_visit_rowid (db : DB) (pid : Nat) (fv : Option Nat) (d : Nat)
    (vt : VisitTransition) (loc : Bool) :
    (add_visit db pid fv d vt loc).2 = db.next_visit_rowid :=
  rfl

theorem applyVisitTrigger_fields (p : Page) (d : Nat) (loc : Bool) :
    (p.applyVisitTrigger d loc).url = p.url ∧
    (p.applyVisitTrigger d loc).url_hash = p.url_hash ∧
    (p.applyVisitTrigger d loc).id = p.id ∧
    (p.applyVisitTrigger d loc).hidden = p.hidden ∧
    (p.applyVisitTrigger d loc).title = p.title ∧
    (p.applyVisitTrigger d loc).typed = p.typed ∧
    (p.applyVisitTrigger d loc).frecency = p.frecency := by
  unfold Page.applyVisitTrigger
  split <;> exact ⟨rfl, rfl, rfl, rfl, rfl, rfl, rfl⟩

theorem applyStaged_fields (u : StagedUpdates) (p : Page) :
    (applyStaged u p).url = p.url ∧
    (applyStaged u p).url_hash = p.url_hash ∧
    (applyStaged u p).id = p.id ∧
    (applyStaged u p).hidden = u.hidden.getD p.hidden ∧
    (applyStaged u p).title = u.title.getD p.title ∧
    (applyStaged u p).typed = u.typed.getD p.typed ∧
    (applyStaged u p).frecency = p.frecency :=
  ⟨rfl, rfl, rfl, rfl, rfl, rfl, rfl⟩

theorem new_page_info_ok (env : Env) (db : DB) (url : String) (db' : DB)
    (row : Page) (h : new_page_info env db url = Except.ok (db', row)) :
    db'.pages = db.pages ++ [row] ∧ db'.visits = db.visits ∧
    row.url = url ∧ row.url_hash = env.hash url ∧
    row.id = db.next_page_rowid ∧ row.title = "" ∧ row.hidden = true ∧
    row.typed = 0 ∧ row.frecency = -1 ∧ db'.next_visit_rowid = db.next_visit_rowid := by
  unfold new_page_info at h
  cases hg : env.guids db.guids_used with
  | none => rw [hg] at h; exact absurd h (by simp)
  | some g =>
    rw [hg] at h
    simp only [Except.ok.injEq, Prod.mk.injEq] at h
    obtain ⟨hdb, hrow⟩ := h
    subst hdb; subst hrow
    exact ⟨rfl, rfl, rfl, rfl, rfl, rfl, rfl, rfl, rfl, rfl⟩

/-- Finding over a map whose function preserves the url and hash fields. -/
theorem find?_map_key_preserving (env : Env) (u : String) (pages : List Page)
    (g : Page → Page)
    (hg : ∀ p, (g p).url = p.url ∧ (g p).url_hash = p.url_hash) :
    (pages.map g).find? (url_row_match env u) =
      (pages.find? (url_row_match env u)).map g := by
  rw [List.find?_map]
  have hpred : url_row_match env u ∘ g = url_row_match env u := by
    funext p
    simp [Function.comp, url_row_match, (hg p).1, (hg p).2]
  rw [hpred]

theorem stage_title_eq (ob : VisitObservation) (pi0 : Page) :
    stage_title ob pi0 =
      ({ pi0 with title := ob.title.getD pi0.title },
       ⟨ob.title, none, none⟩) := by
  unfold stage_title
  cases ob.title <;> rfl

theorem stage_hidden_eq (ob : VisitObservation) (u : StagedUpdates) :
    stage_hidden ob u =
      { u with hidden := if ob.get_is_hidden then u.hidden else some false } := by
  unfold stage_hidden
  by_cases h : ob.get_is_hidden <;> simp [h]

theorem stage_typed_eq (vt : VisitTransition) (pi : Page) (u : StagedUpdates) :
    stage_typed vt pi u =
      (if vt = VisitTransition.typed then { pi with typed := pi.typed + 1 } else pi,
       if vt = VisitTransition.typed then { u with typed := some (pi.typed + 1) }
       else u) := by
  unfold stage_typed
  by_cases h : vt = VisitTransition.typed <;> simp [h]

theorem run_staged_update_visits (db : DB) (pid : Nat) (u : StagedUpdates) :
    (run_staged_update db pid u).visits = db.visits ∧
    (run_staged_update db pid u).next_visit_rowid = db.next_visit_rowid := by
  unfold run_staged_update
  split <;> exact ⟨rfl, rfl⟩

theorem stagedUpdates_isEmpty_spec (u : StagedUpdates) (h : u.isEmpty = true) :
    u.title = none ∧ u.hidden = none ∧ u.typed = none := by
  unfold StagedUpdates.isEmpty at h
  simp only [Bool.and_eq_true, Option.isNone_iff_eq_none] at h
  exact ⟨h.1.1, h.1.2, h.2⟩

/-- Shape of the store after the batched `UPDATE`: the pages are mapped in
place by a function that only rewrites the staged columns of the target
row. -/
theorem run_staged_update_shape (db : DB) (pid : Nat) (u : StagedUpdates) :
    ∃ g : Page → Page,
      (run_staged_update db pid u).pages = db.pages.map g ∧
      (∀ p, (g p).url = p.url ∧ (g p).url_hash = p.url_hash ∧ (g p).id = p.id) ∧
      (∀ p, p.id ≠ pid → g p = p) ∧
      (∀ p, (g p).frecency = p.frecency) ∧
      (∀ p, (g p).hidden = p.hidden ∨ ∃ b, u.hidden = some b ∧ (g p).hidden = b) ∧
      (∀ p, (g p).title = p.title ∨ ∃ t, u.title = some t ∧ (g p).title = t) ∧
      (∀ p, (g p).typed = p.typed ∨ ∃ n, u.typed = some n ∧ (g p).typed = n) ∧
      (∀ t, u.title = some t → ∀ p, p.id = pid → (g p).title = t) ∧
      (∀ b, u.hidden = some b → ∀ p, p.id = pid → (g p).hidden = b) := by
  by_cases he : u.isEmpty
  · obtain ⟨ht, hh, hn⟩ := stagedUpdates_isEmpty_spec u he
    refine ⟨id, ?_, ?_, ?_, ?_, ?_, ?_, ?_, ?_, ?_⟩
    · simp [run_staged_update, he]
    · exact fun p => ⟨rfl, rfl, rfl⟩
    · exact fun p _ => rfl
    · exact fun p => rfl
    · exact fun p => Or.inl rfl
    · exact fun p => Or.inl rfl
    · exact fun p => Or.inl rfl
    · intro t hyp; rw [ht] at hyp; exact absurd hyp (by simp)
    · intro b hyp; rw [hh] at hyp; exact absurd hyp (by simp)
  · refine ⟨fun p => if p.id = pid then applyStaged u p else p, ?_, ?_, ?_, ?_,
      ?_, ?_, ?_, ?_, ?_⟩
    · simp [run_staged_update, he, DB.updatePage]
    · intro p
      by_cases hp : p.id = pid <;> simp [hp, applyStaged]
    · intro p hp
      simp [hp]
    · intro p
      by_cases hp : p.id = pid <;> simp [hp, applyStaged]
    · intro p
      by_cases hp : p.id = pid
      · cases hu : u.hidden with
        | none => left; simp [hp, applyStaged, hu]
        | some b => right; exact ⟨b, rfl, by simp [hp, applyStaged, hu]⟩
      · left; simp [hp]
    · intro p
      by_cases hp : p.id = pid
      · cases hu : u.title with
        | none => left; simp [hp, applyStaged, hu]
        | some t => right; exact ⟨t, rfl, by simp [hp, applyStaged, hu]⟩
      · left; simp [hp]
    · intro p
      by_cases hp : p.id = pid
      · cases hu : u.typed with
        | none => left; simp [hp, applyStaged, hu]
        | some n => right; exact ⟨n, rfl, by simp [hp, applyStaged, hu]⟩
      · left; simp [hp]
    · intro t hyp p hp
      simp [hp, applyStaged, hyp]
    · intro b hyp p hp
      simp [hp, applyStaged, hyp]

/-- Shape of the store after the visit insert: pages mapped in place by the
trigger, which only touches the denormalized count/date columns. -/
theorem add_visit_shape (db : DB) (pid : Nat) (fv : Option Nat) (d : Nat)
    (vt : VisitTransition) (loc : Bool) :
    ∃ g : Page → Page,
      (add_visit db pid fv d vt loc).1.pages = db.pages.map g ∧
      (∀ p, (g p).url = p.url ∧ (g p).url_hash = p.url_hash ∧ (g p).id = p.id) ∧
      (∀ p, p.id ≠ pid → g p = p) ∧
      (∀ p, (g p).hidden = p.hidden ∧ (g p).title = p.title ∧
            (g p).typed = p.typed ∧ (g p).frecency = p.frecency) := by
  refine ⟨fun p => if p.id = pid then p.applyVisitTrigger d loc else p,
    add_visit_pages db pid fv d vt loc, ?_, ?_, ?_⟩
  · intro p
    by_cases hp : p.id = pid
    · obtain ⟨h1, h2, h3, _⟩ := applyVisitTrigger_fields p d loc
      simp [hp, h1, h2, h3]
    · simp [hp]
  · intro p hp
    simp [hp]
  · intro p
    by_cases hp : p.id = pid
    · obtain ⟨_, _, _, h4, h5, h6, h7⟩ := applyVisitTrigger_fields p d loc
      simp [hp, h4, h5, h6, h7]
    · simp [hp]




theorem stage_title_fst_id (ob : VisitObservation) (pi0 : Page) :
    (stage_title ob pi0).1.id = pi0.id := by
  rw [stage_title_eq]

theorem stage_title_snd (ob : VisitObservation) (pi0 : Page) :
    (stage_title ob pi0).2 = ⟨ob.title, none, none⟩ := by
  rw [stage_title_eq]

theorem stage_typed_fst_id (vt : VisitTransition) (pi : Page) (u : StagedUpdates) :
    (stage_typed vt pi u).1.id = pi.id := by
  rw [stage_typed_eq]
  by_cases h : vt = VisitTransition.typed <;> simp [h]

theorem stage_typed_snd_title (vt : VisitTransition) (pi : Page) (u : StagedUpdates) :
    (stage_typed vt pi u).2.title = u.title := by
  rw [stage_typed_eq]
  by_cases h : vt = VisitTransition.typed <;> simp [h]

theorem stage_typed_snd_hidden (vt : VisitTransition) (pi : Page) (u : StagedUpdates) :
    (stage_typed vt pi u).2.hidden = u.hidden := by
  rw [stage_typed_eq]
  by_cases h : vt = VisitTransition.typed <;> simp [h]

theorem stage_hidden_title (ob : VisitObservation) (u : StagedUpdates) :
    (stage_hidden ob u).title = u.title := by
  rw [stage_hidden_eq]

theorem stage_hidden_hidden (ob : VisitObservation) (u : StagedUpdates) :
    (stage_hidden ob u).hidden =
      if ob.get_is_hidden then u.hidden else some false := by
  rw [stage_hidden_eq]

/-- Shape of the store and page info after steps 2–5: pages mapped in place
by a function preserving the key columns, only ever lowering `hidden`, never
touching `frecency`, and writing the observation's title (when present) to
the target row. -/
theorem apply_obs_staged_shape (env : Env) (db0 : DB) (ob : VisitObservation)
    (pi0 : Page) :
    ∃ g : Page → Page,
      (apply_obs_staged env db0 ob pi0).1.pages = db0.pages.map g ∧
      (apply_obs_staged env db0 ob pi0).2.1.id = pi0.id ∧
      (∀ p, (g p).url = p.url ∧ (g p).url_hash = p.url_hash ∧ (g p).id = p.id) ∧
      (∀ p, p.id ≠ pi0.id → g p = p) ∧
      (∀ p, (g p).frecency = p.frecency) ∧
      (∀ p, (g p).hidden = p.hidden ∨ (g p).hidden = false) ∧
      (∀ p, (g p).title = p.title ∨ ob.title = some ((g p).title)) ∧
      (∀ t, ob.title = some t → ∀ p, p.id = pi0.id → (g p).title = t) ∧
      (ob.title = none → ∀ p, (g p).title = p.title) ∧
      (ob.visit_type = none → ∀ p, (g p).hidden = p.hidden ∧ (g p).typed = p.typed) ∧
      (∀ vt, ob.visit_type = some vt → ob.get_is_hidden = false →
        ∀ p, p.id = pi0.id → (g p).hidden = false) := by
  cases hvt : ob.visit_type with
  | none =>
    simp only [apply_obs_staged, hvt]
    have hid : (stage_title ob pi0).1.id = pi0.id := stage_title_fst_id ob pi0
    have hupd : (stage_title ob pi0).2 = ⟨ob.title, none, none⟩ :=
      stage_title_snd ob pi0
    obtain ⟨g, hpages, hkey, hframe, hfrec, hhid, htit, htyp, htitset, hhidset⟩ :=
      run_staged_update_shape db0 (stage_title ob pi0).1.id (stage_title ob pi0).2
    refine ⟨g, hpages, hid, hkey, ?_, hfrec, ?_, ?_, ?_, ?_, ?_, ?_⟩
    · intro p hp
      exact hframe p (by rw [hid]; exact hp)
    · intro p
      rcases hhid p with h | ⟨b, hb, _⟩
      · exact Or.inl h
      · rw [hupd] at hb; exact absurd hb (by simp)
    · intro p
      rcases htit p with h | ⟨t, ht, h2⟩
      · exact Or.inl h
      · rw [hupd] at ht
        exact Or.inr (by rw [h2]; exact ht)
    · intro t ht p hp
      exact htitset t (by rw [hupd]; exact ht) p (by rw [hid]; exact hp)
    · intro ht p
      rcases htit p with h | ⟨t, ht2, _⟩
      · exact h
      · rw [hupd] at ht2; simp [ht] at ht2
    · intro _ p
      constructor
      · rcases hhid p with h | ⟨b, hb, _⟩
        · exact h
        · rw [hupd] at hb; exact absurd hb (by simp)
      · rcases htyp p with h | ⟨n, hn, _⟩
        · exact h
        · rw [hupd] at hn; exact absurd hn (by simp)
    · intro vt hsome; exact absurd hsome (by simp)
  | some vt =>
    simp only [apply_obs_staged, hvt]
    have hpid : (stage_typed vt (stage_title ob pi0).1
        (stage_hidden ob (stage_title ob pi0).2)).1.id = pi0.id := by
      rw [stage_typed_fst_id, stage_title_fst_id]
    have hu3t : (stage_typed vt (stage_title ob pi0).1
        (stage_hidden ob (stage_title ob pi0).2)).2.title = ob.title := by
      rw [stage_typed_snd_title, stage_hidden_title, stage_title_snd]
    have hu3h : (stage_typed vt (stage_title ob pi0).1
        (stage_hidden ob (stage_title ob pi0).2)).2.hidden =
        if ob.get_is_hidden then none else some false := by
      rw [stage_typed_snd_hidden, stage_hidden_hidden, stage_title_snd]
    obtain ⟨g1, hp1, hkey1, hframe1, hpres1⟩ :=
      add_visit_shape db0 (stage_typed vt (stage_title ob pi0).1
        (stage_hidden ob (stage_title ob pi0).2)).1.id none
        (ob.at_.getD env.now) vt (!(ob.is_remote.getD false))
    obtain ⟨g2, hp2, hkey2, hframe2, hfrec2, hhid2, htit2, htyp2, htitset2, hhidset2⟩ :=
      run_staged_update_shape
        (add_visit db0 (stage_typed vt (stage_title ob pi0).1
          (stage_hidden ob (stage_title ob pi0).2)).1.id none
          (ob.at_.getD env.now) vt (!(ob.is_remote.getD false))).1
        (stage_typed vt (stage_title ob pi0).1
          (stage_hidden ob (stage_title ob pi0).2)).1.id
        (stage_typed vt (stage_title ob pi0).1
          (stage_hidden ob (stage_title ob pi0).2)).2
    refine ⟨fun p => g2 (g1 p), ?_, hpid, ?_, ?_, ?_, ?_, ?_, ?_, ?_, ?_, ?_⟩
    · rw [hp2, hp1, List.map_map]; rfl
    · intro p
      obtain ⟨h1, h2, h3⟩ := hkey1 p
      obtain ⟨h4, h5, h6⟩ := hkey2 (g1 p)
      exact ⟨h4.trans h1, h5.trans h2, h6.trans h3⟩
    · intro p hp
      have e1 : g1 p = p := hframe1 p (by rw [hpid]; exact hp)
      show g2 (g1 p) = p
      rw [e1]
      exact hframe2 p (by rw [hpid]; exact hp)
    · intro p
      show (g2 (g1 p)).frecency = p.frecency
      rw [hfrec2 (g1 p)]
      exact (hpres1 p).2.2.2
    · intro p
      have hg1 : (g1 p).hidden = p.hidden := (hpres1 p).1
      rcases hhid2 (g1 p) with h | ⟨b, hb, h⟩
      · exact Or.inl (h.trans hg1)
      · rw [hu3h] at hb
        by_cases hih : ob.get_is_hidden
        · rw [if_pos hih] at hb; exact absurd hb (by simp)
        · rw [if_neg hih] at hb
          have hbf : b = false := (Option.some.inj hb).symm
          refine Or.inr ?_
          show (g2 (g1 p)).hidden = false
          rw [h, hbf]
    · intro p
      have hg1 : (g1 p).title = p.title := (hpres1 p).2.1
      rcases htit2 (g1 p) with h | ⟨t, ht, h⟩
      · exact Or.inl (h.trans hg1)
      · rw [hu3t] at ht
        refine Or.inr ?_
        show ob.title = some ((g2 (g1 p)).title)
        rw [h]; exact ht
    · intro t ht p hp
      have hidp : (g1 p).id = (stage_typed vt (stage_title ob pi0).1
          (stage_hidden ob (stage_title ob pi0).2)).1.id := by
        rw [(hkey1 p).2.2, hpid]; exact hp
      exact htitset2 t (hu3t.trans ht) (g1 p) hidp
    · intro htn p
      have hg1 : (g1 p).title = p.title := (hpres1 p).2.1
      rcases htit2 (g1 p) with h | ⟨t, ht, _⟩
      · exact h.trans hg1
      · rw [hu3t, htn] at ht; exact absurd ht (by simp)
    · intro h; exact absurd h (by simp)
    · intro vt' _ hnh p hp
      have hidp : (g1 p).id = (stage_typed vt (stage_title ob pi0).1
          (stage_hidden ob (stage_title ob pi0).2)).1.id := by
        rw [(hkey1 p).2.2, hpid]; exact hp
      refine hhidset2 false ?_ (g1 p) hidp
      rw [hu3h, if_neg (by rw [hnh]; exact Bool.false_ne_true)]

theorem apply_obs_staged_none_result (env : Env) (db0 : DB)
    (ob : VisitObservation) (pi0 : Page) (h : ob.visit_type = none) :
    (apply_obs_staged env db0 ob pi0).2.2.2 = none ∧
    (apply_obs_staged env db0 ob pi0).1.visits = db0.visits ∧
    (apply_obs_staged env db0 ob pi0).2.2.1 = false := by
  refine ⟨by simp [apply_obs_staged, h], ?_, by simp [apply_obs_staged, h]⟩
  simp only [apply_obs_staged, h]
  exact (run_staged_update_visits _ _ _).1

theorem apply_obs_staged_some_result (env : Env) (db0 : DB)
    (ob : VisitObservation) (pi0 : Page) (vt : VisitTransition)
    (h : ob.visit_type = some vt) :
    (apply_obs_staged env db0 ob pi0).2.2.2 = some db0.next_visit_rowid ∧
    (∃ nv : Visit, nv.id = db0.next_visit_rowid ∧ nv.place_id = pi0.id ∧
       nv.visit_date = ob.at_.getD env.now ∧ nv.visit_type = vt ∧
       nv.is_local = !(ob.is_remote.getD false) ∧ nv.from_visit = none ∧
       (apply_obs_staged env db0 ob pi0).1.visits = db0.visits ++ [nv]) ∧
    (apply_obs_staged env db0 ob pi0).2.2.1 = !(ob.is_error.getD false) := by
  have hpid : (stage_typed vt (stage_title ob pi0).1
      (stage_hidden ob (stage_title ob pi0).2)).1.id = pi0.id := by
    rw [stage_typed_fst_id, stage_title_fst_id]
  refine ⟨by simp [apply_obs_staged, h, add_visit_rowid], ?_,
    by simp [apply_obs_staged, h]⟩
  simp only [apply_obs_staged, h]
  refine ⟨⟨db0.next_visit_rowid,
    (stage_typed vt (stage_title ob pi0).1
      (stage_hidden ob (stage_title ob pi0).2)).1.id,
    none, ob.at_.getD env.now, vt, !(ob.is_remote.getD false)⟩,
    rfl, hpid, rfl, rfl, rfl, rfl, ?_⟩
  rw [(run_staged_update_visits _ _ _).1, add_visit_visits]

theorem apply_obs_staged_frec_flag (env : Env) (db0 : DB)
    (ob : VisitObservation) (pi0 : Page) :
    (apply_obs_staged env db0 ob pi0).2.2.1 =
      (ob.visit_type.isSome && !(ob.is_error.getD false)) := by
  cases hvt : ob.visit_type <;> simp [apply_obs_staged, hvt]

theorem fetch_ok_some (env : Env) (db : DB) (url : String)
    (info : FetchedPageInfo)
    (h : fetch_page_info env db url = Except.ok (some info)) :
    find_page env db url = some info.page := by
  cases hf : find_page env db url with
  | none => simp [fetch_page_info, hf] at h
  | some p =>
    cases hl : last_visit_id_of db p with
    | none => simp [fetch_page_info, hf, hl] at h
    | some vid =>
      simp only [fetch_page_info, hf, hl, Except.ok.injEq,
        Option.some.injEq] at h
      rw [← h]

theorem fetch_ok_none (env : Env) (db : DB) (url : String)
    (h : fetch_page_info env db url = Except.ok none) :
    find_page env db url = none := by
  cases hf : find_page env db url with
  | none => rfl
  | some p =>
    cases hl : last_visit_id_of db p with
    | none => simp [fetch_page_info, hf, hl] at h
    | some vid => simp [fetch_page_info, hf, hl] at h

/-- Case analysis of a successful page resolution (step 1). -/
theorem apply_obs_core_ok_cases (env : Env) (db : DB) (ob : VisitObservation)
    (out : DB × Page × Bool × Option Nat)
    (h : apply_obs_core env db ob = Except.ok out) :
    (∃ info, find_page env db ob.url = some info.page ∧
       fetch_page_info env db ob.url = Except.ok (some info) ∧
       out = apply_obs_staged env db ob info.page) ∨
    (∃ db0 row, find_page env db ob.url = none ∧
       new_page_info env db ob.url = Except.ok (db0, row) ∧
       out = apply_obs_staged env db0 ob row) := by
  unfold apply_obs_core at h
  cases hf : fetch_page_info env db ob.url with
  | error e => rw [hf] at h; exact absurd h (by simp)
  | ok fetched =>
    rw [hf] at h
    cases fetched with
    | some info =>
      simp only [Except.ok.injEq] at h
      exact Or.inl ⟨info, fetch_ok_some env db ob.url info hf, rfl, h.symm⟩
    | none =>
      cases hn : new_page_info env db ob.url with
      | error e => rw [hn] at h; exact absurd h (by simp)
      | ok pr =>
        rw [hn] at h
        simp only [Except.ok.injEq] at h
        exact Or.inr ⟨pr.1, pr.2, fetch_ok_none env db ob.url hf, rfl, h.symm⟩

/-- A committed (`Ok`) run is the direct run: its outcome and final store. -/
theorem apply_observation_ok_direct (env : Env) (db : DB)
    (ob : VisitObservation) (db' : DB) (v : Option Nat)
    (h : apply_observation env db ob = (db', Except.ok v)) :
    apply_observation_direct env db ob = (db', Except.ok v) := by
  simp only [apply_observation] at h
  cases hd : (apply_observation_direct env db ob).2 with
  | ok w =>
    simp only [hd, Prod.mk.injEq, Except.ok.injEq] at h
    rw [Prod.ext_iff]
    exact ⟨h.1, by rw [hd, h.2]⟩
  | error e =>
    simp only [hd, Prod.mk.injEq] at h
    exact absurd h.2 (by simp)

/-- A failed run leaves the store untouched (transaction rollback). -/
theorem apply_observation_error_state (env : Env) (db : DB)
    (ob : VisitObservation) (e : Failure)
    (h : (apply_observation env db ob).2 = Except.error e) :
    (apply_observation env db ob).1 = db := by
  simp only [apply_observation] at h ⊢
  cases hd : (apply_observation_direct env db ob).2 with
  | ok w => simp only [hd] at h; exact absurd h (by simp)
  | error f => simp only [hd]

/-- A successful direct run: the core succeeded, and the frecency phase — when
flagged — drew its score from the collaborator applied to the post-step-5
store and persisted it with the second `UPDATE`. -/
theorem apply_observation_direct_ok_cases (env : Env) (db : DB)
    (ob : VisitObservation) (db' : DB) (v : Option Nat)
    (h : apply_observation_direct env db ob = (db', Except.ok v)) :
    ∃ db2 pi uf, apply_obs_core env db ob = Except.ok (db2, pi, uf, v) ∧
      ((uf = false ∧ db' = db2) ∨
       (uf = true ∧ ∃ score,
          env.frecency db2 pi.id ob.get_redirect_frecency_boost =
            Except.ok score ∧
          db' = db2.updatePage pi.id (fun p => { p with frecency := score }))) := by
  unfold apply_observation_direct at h
  cases hc : apply_obs_core env db ob with
  | error e => rw [hc] at h; simp at h
  | ok out =>
    obtain ⟨db2, pi, uf, vid⟩ := out
    simp only [hc] at h
    cases uf with
    | false =>
      rw [if_neg Bool.false_ne_true] at h
      simp only [Prod.mk.injEq, Except.ok.injEq] at h
      refine ⟨db2, pi, false, ?_, Or.inl ⟨rfl, h.1.symm⟩⟩
      rw [h.2]
    | true =>
      rw [if_pos rfl] at h
      cases hfr : env.frecency db2 pi.id ob.get_redirect_frecency_boost with
      | error e =>
        rw [hfr] at h
        simp at h
      | ok score =>
        rw [hfr] at h
        simp only [Prod.mk.injEq, Except.ok.injEq] at h
        refine ⟨db2, pi, true, ?_, Or.inr ⟨rfl, score, hfr, h.1.symm⟩⟩
        rw [h.2]

/-- Shape of a successful run of steps 1–5: the prior pages are mapped in
place by a column-rewriting function; when the page was created, exactly one
new row for the observation's url is appended, carrying the schema defaults
except for the staged columns. -/
theorem apply_obs_core_ok_shape (env : Env) (db : DB) (ob : VisitObservation)
    (db2 : DB) (pi : Page) (uf : Bool) (v : Option Nat)
    (h : apply_obs_core env db ob = Except.ok (db2, pi, uf, v)) :
    uf = (ob.visit_type.isSome && !(ob.is_error.getD false)) ∧
    ∃ (g : Page → Page) (extra : List Page),
      db2.pages = db.pages.map g ++ extra ∧
      (∀ p, (g p).url = p.url ∧ (g p).url_hash = p.url_hash ∧ (g p).id = p.id) ∧
      (∀ p, p.id ≠ pi.id → g p = p) ∧
      (∀ p, (g p).hidden = p.hidden ∨ (g p).hidden = false) ∧
      (∀ p, (g p).frecency = p.frecency) ∧
      (∀ p, (g p).title = p.title ∨ ob.title = some ((g p).title)) ∧
      (∀ t, ob.title = some t → ∀ p, p.id = pi.id → (g p).title = t) ∧
      (ob.title = none → ∀ p, (g p).title = p.title) ∧
      (ob.visit_type = none → ∀ p, (g p).hidden = p.hidden ∧ (g p).typed = p.typed) ∧
      (∀ vt, ob.visit_type = some vt → ob.get_is_hidden = false →
        ∀ p, p.id = pi.id → (g p).hidden = false) ∧
      (match find_page env db ob.url with
       | some p0 => pi.id = p0.id ∧ extra = []
       | none => ∃ q, extra = [q] ∧ q.url = ob.url ∧
           q.url_hash = env.hash ob.url ∧ q.id = pi.id ∧
           (ob.title = none → q.title = "") ∧
           (∀ t, ob.title = some t → q.title = t) ∧
           (ob.visit_type = none → q.hidden = true ∧ q.typed = 0) ∧
           q.frecency = -1 ∧
           (∀ vt, ob.visit_type = some vt → ob.get_is_hidden = false →
             q.hidden = false)) := by
  rcases apply_obs_core_ok_cases env db ob _ h with
    ⟨info, hfind, _, hout⟩ | ⟨db0, row, hfind, hnew, hout⟩
  · have hdb2 : db2 = (apply_obs_staged env db ob info.page).1 :=
      congrArg Prod.fst hout
    have hpi : pi = (apply_obs_staged env db ob info.page).2.1 :=
      congrArg (fun x => x.2.1) hout
    have huf : uf = (apply_obs_staged env db ob info.page).2.2.1 :=
      congrArg (fun x => x.2.2.1) hout
    obtain ⟨gs, hpages, hpid, hkey, hframe, hfrec, hhid, htit, htitset,
      htitnone, hvnone, hhidset⟩ := apply_obs_staged_shape env db ob info.page
    have hpi_id : pi.id = info.page.id := by rw [hpi]; exact hpid
    refine ⟨by rw [huf]; exact apply_obs_staged_frec_flag env db ob info.page,
      gs, [], ?_, hkey, ?_, hhid, hfrec, htit, ?_, htitnone, hvnone, ?_, ?_⟩
    · rw [hdb2, hpages, List.append_nil]
    · intro p hp; exact hframe p (by rw [← hpi_id]; exact hp)
    · intro t ht p hp; exact htitset t ht p (by rw [← hpi_id]; exact hp)
    · intro vt hvt hnh p hp
      exact hhidset vt hvt hnh p (by rw [← hpi_id]; exact hp)
    · simp only [hfind]
      exact ⟨hpi_id, trivial⟩
  · have hdb2 : db2 = (apply_obs_staged env db0 ob row).1 :=
      congrArg Prod.fst hout
    have hpi : pi = (apply_obs_staged env db0 ob row).2.1 :=
      congrArg (fun x => x.2.1) hout
    have huf : uf = (apply_obs_staged env db0 ob row).2.2.1 :=
      congrArg (fun x => x.2.2.1) hout
    obtain ⟨hp0, _, hrurl, hrhash, _, hrtitle, hrhidden, hrtyped, hrfrec, _⟩ :=
      new_page_info_ok env db ob.url db0 row hnew
    obtain ⟨gs, hpages, hpid, hkey, hframe, hfrec, hhid, htit, htitset,
      htitnone, hvnone, hhidset⟩ := apply_obs_staged_shape env db0 ob row
    have hpi_id : pi.id = row.id := by rw [hpi]; exact hpid
    refine ⟨by rw [huf]; exact apply_obs_staged_frec_flag env db0 ob row,
      gs, [gs row], ?_, hkey, ?_, hhid, hfrec, htit, ?_, htitnone, hvnone,
      ?_, ?_⟩
    · rw [hdb2, hpages, hp0, List.map_append]
      rfl
    · intro p hp; exact hframe p (by rw [← hpi_id]; exact hp)
    · intro t ht p hp; exact htitset t ht p (by rw [← hpi_id]; exact hp)
    · intro vt hvt hnh p hp
      exact hhidset vt hvt hnh p (by rw [← hpi_id]; exact hp)
    · simp only [hfind]
      refine ⟨gs row, rfl, ?_, ?_, ?_, ?_, ?_, ?_, ?_, ?_⟩
      · rw [(hkey row).1, hrurl]
      · rw [(hkey row).2.1, hrhash]
      · rw [(hkey row).2.2, hpi_id]
      · intro ht; rw [htitnone ht row, hrtitle]
      · intro t ht; exact htitset t ht row rfl
      · intro hv
        obtain ⟨h1, h2⟩ := hvnone hv row
        exact ⟨by rw [h1, hrhidden], by rw [h2, hrtyped]⟩
      · rw [hfrec row, hrfrec]
      · intro vt hvt hnh; exact hhidset vt hvt hnh row rfl

/-- Shape of a committed `apply_observation`: the prior pages are mapped in
place (keys preserved, `hidden` only ever lowered, the staged title written
to the target row, `frecency` untouched when no recomputation was flagged),
and at most one new page row — for the observation's url — is appended. -/
theorem apply_observation_ok_shape (env : Env) (db : DB)
    (ob : VisitObservation) (db' : DB) (v : Option Nat)
    (h : apply_observation env db ob = (db', Except.ok v)) :
    ∃ (g : Page → Page) (extra : List Page) (pid : Nat),
      db'.pages = db.pages.map g ++ extra ∧
      (∀ p, (g p).url = p.url ∧ (g p).url_hash = p.url_hash ∧ (g p).id = p.id) ∧
      (∀ p, p.id ≠ pid → g p = p) ∧
      (∀ p, (g p).hidden = p.hidden ∨ (g p).hidden = false) ∧
      (∀ p, (g p).title = p.title ∨ ob.title = some ((g p).title)) ∧
      (∀ t, ob.title = some t → ∀ p, p.id = pid → (g p).title = t) ∧
      (ob.title = none → ∀ p, (g p).title = p.title) ∧
      (ob.visit_type = none → ∀ p, (g p).hidden = p.hidden ∧
        (g p).typed = p.typed ∧ (g p).frecency = p.frecency) ∧
      (ob.is_error = some true → ∀ p, (g p).frecency = p.frecency) ∧
      (∀ vt, ob.visit_type = some vt → ob.get_is_hidden = false →
        ∀ p, p.id = pid → (g p).hidden = false) ∧
      (match find_page env db ob.url with
       | some p0 => pid = p0.id ∧ extra = []
       | none => ∃ q, extra = [q] ∧ q.url = ob.url ∧
           q.url_hash = env.hash ob.url ∧ q.id = pid ∧
           (ob.title = none → q.title = "") ∧
           (∀ t, ob.title = some t → q.title = t) ∧
           (ob.visit_type = none → q.hidden = true ∧ q.typed = 0 ∧
             q.frecency = -1) ∧
           (ob.is_error = some true → q.frecency = -1) ∧
           (∀ vt, ob.visit_type = some vt → ob.get_is_hidden = false →
             q.hidden = false)) := by
  obtain ⟨db2, pi, uf, hcore, hphase⟩ :=
    apply_observation_direct_ok_cases env db ob db' v
      (apply_observation_ok_direct env db ob db' v h)
  obtain ⟨hufeq, gs, extra0, hpages, hkey, hframe, hhid, hfrec, htit,
    htitset, htitnone, hvnone, hhidset, hmatch⟩ :=
    apply_obs_core_ok_shape env db ob db2 pi uf v hcore
  rcases hphase with ⟨huf0, hdb'⟩ | ⟨huf1, score, hfr, hdb'⟩
  · refine ⟨gs, extra0, pi.id, ?_, hkey, hframe, hhid, htit, htitset,
      htitnone, ?_, ?_, hhidset, ?_⟩
    · rw [hdb']; exact hpages
    · intro hv p
      obtain ⟨h1, h2⟩ := hvnone hv p
      exact ⟨h1, h2, hfrec p⟩
    · intro _ p; exact hfrec p
    · cases hfp : find_page env db ob.url with
      | some p0 =>
        rw [hfp] at hmatch
        exact hmatch
      | none =>
        rw [hfp] at hmatch
        obtain ⟨q, he, h1, h2, h3, h4, h5, h6, h7, h8⟩ := hmatch
        exact ⟨q, he, h1, h2, h3, h4, h5,
          fun hv => ⟨(h6 hv).1, (h6 hv).2, h7⟩, fun _ => h7, h8⟩
  · -- the frecency phase ran: compose with the second UPDATE's map
    have hnof : ob.visit_type.isSome = true ∧ ob.is_error.getD false = false := by
      rw [huf1] at hufeq
      have := hufeq.symm
      simp only [Bool.and_eq_true, Bool.not_eq_true'] at this
      exact this
    have hvsome : ob.visit_type ≠ none := by
      intro hv
      rw [hv] at hnof
      exact absurd hnof.1 (by simp)
    have hnerr : ob.is_error ≠ some true := by
      intro hie
      rw [hie] at hnof
      exact absurd hnof.2 (by simp)
    refine ⟨fun p => if (gs p).id = pi.id then
        { gs p with frecency := score } else gs p,
      extra0.map (fun q => if q.id = pi.id then
        { q with frecency := score } else q),
      pi.id, ?_, ?_, ?_, ?_, ?_, ?_, ?_, ?_, ?_, ?_, ?_⟩
    · rw [hdb', updatePage_pages, hpages, List.map_append, List.map_map]
      rfl
    · intro p
      dsimp only
      by_cases hp : (gs p).id = pi.id
      · rw [if_pos hp]; exact hkey p
      · rw [if_neg hp]; exact hkey p
    · intro p hp
      have hgs : gs p = p := hframe p hp
      dsimp only
      rw [hgs, if_neg hp]
    · intro p
      dsimp only
      by_cases hp : (gs p).id = pi.id
      · rw [if_pos hp]; exact hhid p
      · rw [if_neg hp]; exact hhid p
    · intro p
      dsimp only
      by_cases hp : (gs p).id = pi.id
      · rw [if_pos hp]; exact htit p
      · rw [if_neg hp]; exact htit p
    · intro t ht p hp
      dsimp only
      by_cases hq : (gs p).id = pi.id
      · rw [if_pos hq]; exact htitset t ht p hp
      · rw [if_neg hq]; exact htitset t ht p hp
    · intro ht p
      dsimp only
      by_cases hq : (gs p).id = pi.id
      · rw [if_pos hq]; exact htitnone ht p
      · rw [if_neg hq]; exact htitnone ht p
    · intro hv; exact absurd hv hvsome
    · intro hie; exact absurd hie hnerr
    · intro vt hvt hnh p hp
      dsimp only
      by_cases hq : (gs p).id = pi.id
      · rw [if_pos hq]; exact hhidset vt hvt hnh p hp
      · rw [if_neg hq]; exact hhidset vt hvt hnh p hp
    · cases hfp : find_page env db ob.url with
      | some p0 =>
        rw [hfp] at hmatch
        exact ⟨hmatch.1, by rw [hmatch.2]; rfl⟩
      | none =>
        rw [hfp] at hmatch
        obtain ⟨q, he, h1, h2, h3, h4, h5, h6, h7, h8⟩ := hmatch
        refine ⟨if q.id = pi.id then { q with frecency := score } else q,
          by rw [he]; rfl, ?_, ?_, ?_, ?_, ?_, ?_, ?_, ?_⟩
        · by_cases hq : q.id = pi.id
          · rw [if_pos hq]; exact h1
          · rw [if_neg hq]; exact h1
        · by_cases hq : q.id = pi.id
          · rw [if_pos hq]; exact h2
          · rw [if_neg hq]; exact h2
        · by_cases hq : q.id = pi.id
          · rw [if_pos hq]; exact h3
          · rw [if_neg hq]; exact h3
        · intro ht
          by_cases hq : q.id = pi.id
          · rw [if_pos hq]; exact h4 ht
          · rw [if_neg hq]; exact h4 ht
        · intro t ht
          by_cases hq : q.id = pi.id
          · rw [if_pos hq]; exact h5 t ht
          · rw [if_neg hq]; exact h5 t ht
        · intro hv; exact absurd hv hvsome
        · intro hie; exact absurd hie hnerr
        · intro vt hvt hnh
          by_cases hq : q.id = pi.id
          · rw [if_pos hq]; exact h8 vt hvt hnh
          · rw [if_neg hq]; exact h8 vt hvt hnh

theorem url_row_match_spec (env : Env) (u : String) (p : Page)
    (h : url_row_match env u p = true) :
    p.url_hash = env.hash u ∧ p.url = u := by
  simp only [url_row_match, Bool.and_eq_true, beq_iff_eq] at h
  exact h

theorem url_row_match_intro (env : Env) (u : String) (p : Page)
    (h1 : p.url_hash = env.hash u) (h2 : p.url = u) :
    url_row_match env u p = true := by
  simp [url_row_match, h1, h2]

/-- Visits committed by a successful run: none for a metadata-only
observation, exactly one appended row otherwise. -/
theorem apply_observation_ok_visits (env : Env) (db : DB)
    (ob : VisitObservation) (db' : DB) (v : Option Nat)
    (h : apply_observation env db ob = (db', Except.ok v)) :
    (ob.visit_type = none → v = none ∧ db'.visits = db.visits) ∧
    (∀ vt, ob.visit_type = some vt →
      ∃ rid nv, v = some rid ∧ nv.id = rid ∧
        nv.visit_date = ob.at_.getD env.now ∧ nv.visit_type = vt ∧
        nv.is_local = !(ob.is_remote.getD false) ∧ nv.from_visit = none ∧
        db'.visits = db.visits ++ [nv]) := by
  obtain ⟨db2, pi, uf, hcore, hphase⟩ :=
    apply_observation_direct_ok_cases env db ob db' v
      (apply_observation_ok_direct env db ob db' v h)
  have hdv : db'.visits = db2.visits := by
    rcases hphase with ⟨_, hdb'⟩ | ⟨_, score, _, hdb'⟩
    · rw [hdb']
    · rw [hdb', updatePage_visits]
  have hU : ∃ db0 pi0, db0.visits = db.visits ∧
      (db2, pi, uf, v) = apply_obs_staged env db0 ob pi0 := by
    rcases apply_obs_core_ok_cases env db ob _ hcore with
      ⟨info, _, _, hout⟩ | ⟨db0, row, _, hnew, hout⟩
    · exact ⟨db, info.page, rfl, hout⟩
    · exact ⟨db0, row, (new_page_info_ok env db ob.url db0 row hnew).2.1, hout⟩
  obtain ⟨db0, pi0, hv0, hout⟩ := hU
  have hdb2 : db2 = (apply_obs_staged env db0 ob pi0).1 :=
    congrArg Prod.fst hout
  have hvv : v = (apply_obs_staged env db0 ob pi0).2.2.2 :=
    congrArg (fun x => x.2.2.2) hout
  constructor
  · intro hvt
    obtain ⟨r1, r2, _⟩ := apply_obs_staged_none_result env db0 ob pi0 hvt
    exact ⟨hvv.trans r1, by rw [hdv, hdb2, r2, hv0]⟩
  · intro vt hvt
    obtain ⟨r1, ⟨nv, hnv1, _, hnv3, hnv4, hnv5, hnv6, hnv7⟩, _⟩ :=
      apply_obs_staged_some_result env db0 ob pi0 vt hvt
    exact ⟨db0.next_visit_rowid, nv, hvv.trans r1, hnv1, hnv3, hnv4, hnv5,
      hnv6, by rw [hdv, hdb2, hnv7, hv0]⟩

/-- Resolving `find_page` after a committed run, when the page already existed: it
resolves to the in-place rewrite of the page it found before. -/
theorem find_page_after_ok (env : Env) (db : DB) (ob : VisitObservation)
    (db' : DB) (v : Option Nat) (u : String) (p : Page)
    (h : apply_observation env db ob = (db', Except.ok v))
    (hfind : find_page env db u = some p) :
    ∃ (g : Page → Page) (pid : Nat),
      find_page env db' u = some (g p) ∧
      ((g p).hidden = p.hidden ∨ (g p).hidden = false) ∧
      ((g p).title = p.title ∨ ob.title = some ((g p).title)) ∧
      (ob.title = none → (g p).title = p.title) := by
  obtain ⟨g, extra, pid, hpages, hkey, hframe, hhid, htit, htitset, htitnone,
    hvnone, herr, hhidset, hmatch⟩ :=
    apply_observation_ok_shape env db ob db' v h
  have hfp : find_page env db' u = some (g p) := by
    unfold find_page at hfind ⊢
    rw [hpages, List.find?_append,
      find?_map_key_preserving env u db.pages g
        (fun q => ⟨(hkey q).1, (hkey q).2.1⟩),
      hfind]
    rfl
  exact ⟨g, pid, hfp, hhid p, htit p, fun hn => htitnone hn p⟩

/-- Resolving `find_page` for the observation's own url after a committed run: a page
for that url exists (created when absent), its title is the staged title
(when present), and its hidden flag is false when the observation recorded a
non-hidden visit. -/
theorem find_page_target_after_ok (env : Env) (db : DB)
    (ob : VisitObservation) (db' : DB) (v : Option Nat)
    (h : apply_observation env db ob = (db', Except.ok v)) :
    ∃ p', find_page env db' ob.url = some p' ∧
      (∀ t, ob.title = some t → p'.title = t) ∧
      (∀ vt, ob.visit_type = some vt → ob.get_is_hidden = false →
        p'.hidden = false) := by
  obtain ⟨g, extra, pid, hpages, hkey, hframe, hhid, htit, htitset, htitnone,
    hvnone, herr, hhidset, hmatch⟩ :=
    apply_observation_ok_shape env db ob db' v h
  cases hfp : find_page env db ob.url with
  | some p0 =>
    rw [hfp] at hmatch
    obtain ⟨hpid, hextra⟩ := hmatch
    have hp0id : p0.id = pid := hpid.symm
    have hfp' : find_page env db' ob.url = some (g p0) := by
      unfold find_page at hfp ⊢
      rw [hpages, List.find?_append,
        find?_map_key_preserving env ob.url db.pages g
          (fun q => ⟨(hkey q).1, (hkey q).2.1⟩), hfp]
      rfl
    exact ⟨g p0, hfp', fun t ht => htitset t ht p0 hp0id,
      fun vt hvt hnh => hhidset vt hvt hnh p0 hp0id⟩
  | none =>
    rw [hfp] at hmatch
    obtain ⟨q, hextra, hqurl, hqhash, hqid, hqtn, hqts, hqvn, hqerr, hqhs⟩ :=
      hmatch
    have hq : url_row_match env ob.url q = true :=
      url_row_match_intro env ob.url q hqhash hqurl
    have hfp' : find_page env db' ob.url = some q := by
      unfold find_page at hfp ⊢
      rw [hpages, List.find?_append,
        find?_map_key_preserving env ob.url db.pages g
          (fun r => ⟨(hkey r).1, (hkey r).2.1⟩), hfp, hextra,
        List.find?_cons_of_pos _ hq]
      rfl
    exact ⟨q, hfp', hqts, hqhs⟩

/-- One step of hidden-monotonicity: any call (committed or failed) keeps a
page that is already not hidden not hidden. -/
theorem hidden_false_step (env : Env) (db : DB) (ob : VisitObservation)
    (u : String) (p : Page)
    (hfind : find_page env db u = some p) (hh : p.hidden = false) :
    ∃ p', find_page env (apply_observation env db ob).1 u = some p' ∧
      p'.hidden = false := by
  cases hr : (apply_observation env db ob).2 with
  | error e =>
    rw [apply_observation_error_state env db ob e hr]
    exact ⟨p, hfind, hh⟩
  | ok v =>
    have hpair : apply_observation env db ob =
        ((apply_observation env db ob).1, Except.ok v) := by
      rw [← hr]
    obtain ⟨g, pid, hfp, hhid, _, _⟩ :=
      find_page_after_ok env db ob _ v u p hpair hfind
    refine ⟨g p, hfp, ?_⟩
    rcases hhid with h1 | h1
    · rw [h1, hh]
    · exact h1

/-- Hidden-monotonicity over any sequence of observations. -/
theorem hidden_false_steps (env : Env) (db : DB)
    (obs : List VisitObservation) (u : String) (p : Page)
    (hfind : find_page env db u = some p) (hh : p.hidden = false) :
    ∃ p', find_page env (apply_observations env db obs).1 u = some p' ∧
      p'.hidden = false := by
  induction obs generalizing db p with
  | nil => exact ⟨p, hfind, hh⟩
  | cons ob rest ih =>
    simp only [apply_observations]
    obtain ⟨p1, hf1, hh1⟩ := hidden_false_step env db ob u p hfind hh
    exact ih _ p1 hf1 hh1

/-- A call whose observation stages no title keeps every page's resolved
title unchanged. -/
theorem title_none_step (env : Env) (db : DB) (ob : VisitObservation)
    (u : String) (p : Page)
    (hfind : find_page env db u = some p) (htn : ob.title = none) :
    ∃ p', find_page env (apply_observation env db ob).1 u = some p' ∧
      p'.title = p.title := by
  cases hr : (apply_observation env db ob).2 with
  | error e =>
    rw [apply_observation_error_state env db ob e hr]
    exact ⟨p, hfind, rfl⟩
  | ok v =>
    have hpair : apply_observation env db ob =
        ((apply_observation env db ob).1, Except.ok v) := by
      rw [← hr]
    obtain ⟨g, pid, hfp, _, _, htn'⟩ :=
      find_page_after_ok env db ob _ v u p hpair hfind
    exact ⟨g p, hfp, htn' htn⟩

/-- Title preservation over a sequence of title-free observations. -/
theorem title_none_steps (env : Env) (db : DB)
    (obs : List VisitObservation) (u : String) (p : Page)
    (hfind : find_page env db u = some p)
    (htn : ∀ ob ∈ obs, ob.title = none) :
    ∃ p', find_page env (apply_observations env db obs).1 u = some p' ∧
      p'.title = p.title := by
  induction obs generalizing db p with
  | nil => exact ⟨p, hfind, rfl⟩
  | cons ob rest ih =>
    simp only [apply_observations]
    obtain ⟨p1, hf1, ht1⟩ :=
      title_none_step env db ob u p hfind (htn ob (List.mem_cons_self ob rest))
    obtain ⟨p2, hf2, ht2⟩ := ih _ p1 hf1
      (fun o ho => htn o (List.mem_cons_of_mem ob ho))
    exact ⟨p2, hf2, ht2.trans ht1⟩

/-- Decomposition of a fully-successful run of a cons list. -/
theorem apply_observations_cons_ok (env : Env) (db : DB)
    (ob : VisitObservation) (rest : List VisitObservation)
    (h : (apply_observations env db (ob :: rest)).2 = true) :
    (∃ v, apply_observation env db ob =
      ((apply_observation env db ob).1, Except.ok v)) ∧
    (apply_observations env (apply_observation env db ob).1 rest).2 = true ∧
    (apply_observations env db (ob :: rest)).1 =
      (apply_observations env (apply_observation env db ob).1 rest).1 := by
  simp only [apply_observations, Bool.and_eq_true] at h
  refine ⟨?_, h.2, rfl⟩
  cases hr : (apply_observation env db ob).2 with
  | ok v => exact ⟨v, by rw [← hr]⟩
  | error e =>
    have := h.1
    rw [hr] at this
    exact absurd this (by simp [Except.isOk, Except.toBool])

/-- Over a fully-successful same-url run, the page for that url ends with
the title of the last observation that carried one. -/
theorem title_last_wins_aux (env : Env) (obs : List VisitObservation)
    (u : String) (t : String) :
    ∀ db : DB, (∀ ob ∈ obs, ob.url = u) →
      (apply_observations env db obs).2 = true →
      (obs.filterMap (fun ob => ob.title)).getLast? = some t →
      ∃ p', find_page env (apply_observations env db obs).1 u = some p' ∧
        p'.title = t := by
  induction obs with
  | nil => intro db _ _ hlast; simp at hlast
  | cons ob rest ih =>
    intro db hurl hok hlast
    obtain ⟨⟨v, hstep⟩, hrestok, hfinal⟩ :=
      apply_observations_cons_ok env db ob rest hok
    rw [hfinal]
    cases ht : ob.title with
    | none =>
      have hl : (rest.filterMap (fun ob => ob.title)).getLast? = some t := by
        rw [List.filterMap_cons_none ht] at hlast
        exact hlast
      exact ih _ (fun o ho => hurl o (List.mem_cons_of_mem ob ho)) hrestok hl
    | some s =>
      rw [List.filterMap_cons_some ht] at hlast
      cases hrt : rest.filterMap (fun ob => ob.title) with
      | nil =>
        rw [hrt] at hlast
        have hst : s = t := by simpa using hlast
        obtain ⟨p1, hf1, hts, _⟩ :=
          find_page_target_after_ok env db ob _ v hstep
        have hu : ob.url = u := hurl ob (List.mem_cons_self ob rest)
        rw [hu] at hf1
        have htitle1 : p1.title = t := by rw [hts s ht, hst]
        have hnone : ∀ o ∈ rest, o.title = none :=
          List.filterMap_eq_nil_iff.mp hrt
        obtain ⟨p2, hf2, ht2⟩ :=
          title_none_steps env _ rest u p1 hf1 hnone
        exact ⟨p2, hf2, ht2.trans htitle1⟩
      | cons x xs =>
        rw [hrt] at hlast
        have hl : (rest.filterMap (fun ob => ob.title)).getLast? = some t := by
          rw [hrt, ← List.getLast?_cons_cons]
          exact hlast
        exact ih _ (fun o ho => hurl o (List.mem_cons_of_mem ob ho)) hrestok hl

theorem mark_chunk_length (env : Env) (db : DB) :
    ∀ (l : List String) (off : Nat) (res : List Bool),
      (mark_chunk env db off l res).length = res.length := by
  intro l
  induction l with
  | nil => intro off res; rfl
  | cons x xs ih =>
    intro off res
    simp only [mark_chunk]
    rw [ih]
    split <;> simp

theorem mark_chunk_getElem_lt (env : Env) (db : DB) :
    ∀ (l : List String) (off i : Nat) (res : List Bool), i < off →
      (mark_chunk env db off l res)[i]? = res[i]? := by
  intro l
  induction l with
  | nil => intro off i res _; rfl
  | cons x xs ih =>
    intro off i res hi
    simp only [mark_chunk]
    rw [ih (off + 1) i _ (Nat.lt_succ_of_lt hi)]
    split
    · exact List.getElem?_set_ne (Nat.ne_of_gt hi)
    · rfl

theorem mark_chunk_getElem_ge (env : Env) (db : DB) :
    ∀ (l : List String) (off i : Nat) (res : List Bool),
      off + l.length ≤ i →
      (mark_chunk env db off l res)[i]? = res[i]? := by
  intro l
  induction l with
  | nil => intro off i res _; rfl
  | cons x xs ih =>
    intro off i res hi
    simp only [mark_chunk]
    rw [List.length_cons] at hi
    rw [ih (off + 1) i _ (by omega)]
    split
    · exact List.getElem?_set_ne (by omega)
    · rfl

theorem mark_chunk_getElem_at (env : Env) (db : DB) :
    ∀ (l : List String) (off j : Nat) (res : List Bool) (u : String),
      l[j]? = some u →
      (mark_chunk env db off l res)[off + j]? =
        if page_match env db u then (res[off + j]?).map (fun _ => true)
        else res[off + j]? := by
  intro l
  induction l with
  | nil => intro off j res u h; simp at h
  | cons x xs ih =>
    intro off j res u h
    cases j with
    | zero =>
      have hx : x = u := by simpa using h
      subst hx
      rw [Nat.add_zero]
      simp only [mark_chunk]
      rw [mark_chunk_getElem_lt env db xs (off + 1) off _ (Nat.lt_succ_self off)]
      by_cases hpm : page_match env db x
      · rw [if_pos hpm, if_pos hpm, List.getElem?_set_self']
        rfl
      · rw [if_neg hpm, if_neg hpm]
    | succ j' =>
      have hxs : xs[j']? = some u := by simpa using h
      have hidx : off + (j' + 1) = (off + 1) + j' := by omega
      rw [hidx]
      simp only [mark_chunk]
      have hres : ∀ res' : List Bool,
          (if page_match env db x then res.set off true else res) = res' →
          res'[(off + 1) + j']? = res[(off + 1) + j']? := by
        intro res' hr
        rw [← hr]
        split
        · exact List.getElem?_set_ne (by omega)
        · rfl
      rw [ih (off + 1) j' _ u hxs, hres _ rfl]

theorem mark_chunk_append (env : Env) (db : DB) :
    ∀ (a b : List String) (off : Nat) (res : List Bool),
      mark_chunk env db off (a ++ b) res =
        mark_chunk env db (off + a.length) b (mark_chunk env db off a res) := by
  intro a
  induction a with
  | nil => intro b off res; simp [mark_chunk]
  | cons x xs ih =>
    intro b off res
    simp only [List.cons_append, mark_chunk, List.length_cons]
    rw [List.append_eq, ih]
    have heq : off + 1 + xs.length = off + (xs.length + 1) := by omega
    rw [heq]

theorem get_visited_go_chunks (env : Env) (db : DB) (n : Nat) (hn : 0 < n) :
    ∀ (k : Nat) (l : List String), l.length ≤ k →
      ∀ (off : Nat) (res : List Bool),
        get_visited_go env db off (chunksOf n l) res =
          mark_chunk env db off l res := by
  intro k
  induction k with
  | zero =>
    intro l hl off res
    have hnil : l = [] := List.eq_nil_of_length_eq_zero (Nat.le_zero.mp hl)
    subst hnil
    rw [chunksOf]
    simp [get_visited_go, mark_chunk]
  | succ k ih =>
    intro l hl off res
    by_cases hnil : l = []
    · subst hnil
      rw [chunksOf]
      simp [get_visited_go, mark_chunk]
    · rw [chunksOf]
      have hcond : ¬((l.isEmpty || n == 0) = true) := by
        simp only [Bool.or_eq_true, List.isEmpty_eq_true, beq_iff_eq]
        push_neg
        exact ⟨hnil, Nat.pos_iff_ne_zero.mp hn⟩
      rw [if_neg hcond]
      simp only [get_visited_go]
      rw [ih (l.drop n)
        (by
          rw [List.length_drop]
          have h1 : 0 < l.length := List.length_pos.mpr hnil
          omega)]
      rw [← mark_chunk_append, List.take_append_drop]

theorem get_visited_eq_mark (env : Env) (db : DB) (urls : List String)
    (csize : Nat) (h : 0 < csize) :
    get_visited env db urls csize =
      mark_chunk env db 0 urls (List.replicate urls.length false) := by
  unfold get_visited
  exact get_visited_go_chunks env db csize h urls.length urls le_rfl 0 _

/-! ### Claim theorems -/

/-- C1: `apply_observation` is atomic: it reports exactly the outcome of the
direct run; on any failure the store is exactly as before the call (no
intermediate state survives, even though the direct run may already have
written); on success it keeps every write of the direct run — in particular
an `Ok (some rid)` outcome commits exactly one new visit row carrying that
rowid, and an `Ok none` outcome commits no visit. -/
theorem claim_apply_observation_atomic (env : Env) (db : DB)
    (ob : VisitObservation) :
    (apply_observation env db ob).2 = (apply_observation_direct env db ob).2 ∧
    (∀ e, (apply_observation env db ob).2 = Except.error e →
      (apply_observation env db ob).1 = db) ∧
    (∀ v, (apply_observation env db ob).2 = Except.ok v →
      (apply_observation env db ob).1 =
        (apply_observation_direct env db ob).1) ∧
    (∀ rid, (apply_observation env db ob).2 = Except.ok (some rid) →
      ∃ nv, nv.id = rid ∧
        (apply_observation env db ob).1.visits = db.visits ++ [nv]) ∧
    ((apply_observation env db ob).2 = Except.ok none →
      (apply_observation env db ob).1.visits = db.visits) := by
  refine ⟨?_, ?_, ?_, ?_, ?_⟩
  · simp only [apply_observation]
    cases hd : (apply_observation_direct env db ob).2 <;> simp [hd]
  · intro e he
    exact apply_observation_error_state env db ob e he
  · intro v hv
    have hpair : apply_observation env db ob =
        ((apply_observation env db ob).1, Except.ok v) := by rw [← hv]
    exact (congrArg Prod.fst
      (apply_observation_ok_direct env db ob _ v hpair)).symm
  · intro rid hv
    have hpair : apply_observation env db ob =
        ((apply_observation env db ob).1, Except.ok (some rid)) := by
      rw [← hv]
    obtain ⟨hnone, hsome⟩ := apply_observation_ok_visits env db ob _ _ hpair
    cases hvt : ob.visit_type with
    | none => exact absurd (hnone hvt).1 (by simp)
    | some vt =>
      obtain ⟨rid', nv, hv', hnv, _, _, _, _, hvis⟩ := hsome vt hvt
      exact ⟨nv, by rw [hnv]; exact (Option.some.inj hv').symm, hvis⟩
  · intro hv
    have hpair : apply_observation env db ob =
        ((apply_observation env db ob).1, Except.ok none) := by rw [← hv]
    obtain ⟨hnone, hsome⟩ := apply_observation_ok_visits env db ob _ _ hpair
    cases hvt : ob.visit_type with
    | none => exact (hnone hvt).2
    | some vt =>
      obtain ⟨rid', nv, hv', _⟩ := hsome vt hvt
      exact absurd hv' (by simp)

/-- Witness for C1 at a concrete input: a committed link visit on a fresh
store reports rowid 1 and commits exactly that visit row. -/
theorem claim_apply_observation_atomic_witness :
    (apply_observation env0 db0 obVisit).2 = Except.ok (some 1) ∧
    ∃ nv, nv.id = 1 ∧
      (apply_observation env0 db0 obVisit).1.visits = db0.visits ++ [nv] :=
  ⟨by decide,
   (claim_apply_observation_atomic env0 db0 obVisit).2.2.2.1 1 (by decide)⟩

/-- C3: a metadata-only observation (no visit type) returns `none`, inserts
no visit row, leaves every page's hidden/typed/frecency untouched, but still
applies a present title to the page resolved for its url — creating that
page (with the schema defaults) when no page existed. -/
theorem claim_metadata_only_observation (env : Env) (db : DB)
    (ob : VisitObservation) (db' : DB) (v : Option Nat)
    (hvt : ob.visit_type = none)
    (hok : apply_observation env db ob = (db', Except.ok v)) :
    v = none ∧ db'.visits = db.visits ∧
    (∀ p ∈ db.pages, ∃ p' ∈ db'.pages, p'.id = p.id ∧ p'.hidden = p.hidden ∧
      p'.typed = p.typed ∧ p'.frecency = p.frecency ∧
      (p'.title = p.title ∨ ob.title = some p'.title)) ∧
    (∀ t, ob.title = some t → ∃ p', find_page env db' ob.url = some p' ∧
      p'.title = t) ∧
    (find_page env db ob.url = none →
      ∃ q, find_page env db' ob.url = some q ∧ q.url = ob.url ∧
        q.hidden = true ∧ q.typed = 0 ∧ q.frecency = -1 ∧
        (∀ t, ob.title = some t → q.title = t)) := by
  obtain ⟨hnone, _⟩ := apply_observation_ok_visits env db ob db' v hok
  obtain ⟨hv, hvis⟩ := hnone hvt
  obtain ⟨g, extra, pid, hpages, hkey, hframe, hhid, htit, htitset, htitnone,
    hvnone, herr, hhidset, hmatch⟩ :=
    apply_observation_ok_shape env db ob db' v hok
  refine ⟨hv, hvis, ?_, ?_, ?_⟩
  · intro p hp
    obtain ⟨hh, hty, hfr⟩ := hvnone hvt p
    refine ⟨g p, ?_, (hkey p).2.2, hh, hty, hfr, htit p⟩
    rw [hpages]
    exact List.mem_append_left _ (List.mem_map_of_mem g hp)
  · intro t ht
    obtain ⟨p', hf, hts, _⟩ := find_page_target_after_ok env db ob db' v hok
    exact ⟨p', hf, hts t ht⟩
  · intro hfp
    rw [hfp] at hmatch
    obtain ⟨q, hextra, hqurl, hqhash, hqid, hqtn, hqts, hqvn, hqerr, hqhs⟩ :=
      hmatch
    have hq : url_row_match env ob.url q = true :=
      url_row_match_intro env ob.url q hqhash hqurl
    have hfp' : find_page env db' ob.url = some q := by
      unfold find_page at hfp ⊢
      rw [hpages, List.find?_append,
        find?_map_key_preserving env ob.url db.pages g
          (fun r => ⟨(hkey r).1, (hkey r).2.1⟩), hfp, hextra,
        List.find?_cons_of_pos _ hq]
      rfl
    obtain ⟨hq1, hq2, hq3⟩ := hqvn hvt
    exact ⟨q, hfp', hqurl, hq1, hq2, hq3, hqts⟩

/-- Witness for C3 at a concrete input: a title-only observation on a fresh
store returns `none`, commits no visit and creates a page titled "A". -/
theorem claim_metadata_only_observation_witness :
    (∃ q, find_page env0 (apply_observation env0 db0 obMeta).1 obMeta.url =
      some q ∧ q.url = obMeta.url ∧ q.hidden = true ∧ q.typed = 0 ∧
      q.frecency = -1 ∧ (∀ t, obMeta.title = some t → q.title = t)) :=
  (claim_metadata_only_observation env0 db0 obMeta
    (apply_observation env0 db0 obMeta).1 none rfl (by decide)).2.2.2.2
    (by decide)

/-- C5: an error-flagged visit observation still inserts the visit row and
returns its rowid, while every prior page keeps its frecency unchanged. -/
theorem claim_error_visit_frame (env : Env) (db : DB)
    (ob : VisitObservation) (vt : VisitTransition) (db' : DB)
    (v : Option Nat)
    (hvt : ob.visit_type = some vt) (herr : ob.is_error = some true)
    (hok : apply_observation env db ob = (db', Except.ok v)) :
    (∃ rid nv, v = some rid ∧ nv.id = rid ∧
      db'.visits = db.visits ++ [nv]) ∧
    (∀ p ∈ db.pages, ∃ p' ∈ db'.pages, p'.id = p.id ∧
      p'.frecency = p.frecency) := by
  constructor
  · obtain ⟨_, hsome⟩ := apply_observation_ok_visits env db ob db' v hok
    obtain ⟨rid, nv, h1, h2, _, _, _, _, h7⟩ := hsome vt hvt
    exact ⟨rid, nv, h1, h2, h7⟩
  · obtain ⟨g, extra, pid, hpages, hkey, _, _, _, _, _, _, herrf, _, _⟩ :=
      apply_observation_ok_shape env db ob db' v hok
    intro p hp
    refine ⟨g p, ?_, (hkey p).2.2, herrf herr p⟩
    rw [hpages]
    exact List.mem_append_left _ (List.mem_map_of_mem g hp)

/-- Witness for C5 at a concrete input: on a store already holding the page
(with frecency 101), an error-flagged visit returns rowid 2, appends the
visit, and the page keeps frecency 101. -/
theorem claim_error_visit_frame_witness :
    (∃ rid nv, (some 2 : Option Nat) = some rid ∧ nv.id = rid ∧
      (apply_observation env0 (apply_observation env0 db0 obVisit).1
        obErrorVisit).1.visits =
      (apply_observation env0 db0 obVisit).1.visits ++ [nv]) ∧
    (∀ p ∈ (apply_observation env0 db0 obVisit).1.pages,
      ∃ p' ∈ (apply_observation env0 (apply_observation env0 db0 obVisit).1
        obErrorVisit).1.pages, p'.id = p.id ∧ p'.frecency = p.frecency) :=
  claim_error_visit_frame env0 (apply_observation env0 db0 obVisit).1
    obErrorVisit VisitTransition.link
    (apply_observation env0 (apply_observation env0 db0 obVisit).1
      obErrorVisit).1 (some 2) rfl rfl (by decide)

/-- C2: for a committed non-error visit observation, the frecency phase ran:
the collaborator was invoked on the store exactly as left by the batched
step-5 `UPDATE` (and the visit insert), its score was persisted by a second,
separate `UPDATE`, and afterwards every page row with the target's rowid
carries exactly that score — never a stale value. -/
theorem claim_frecency_fresh_after_visit (env : Env) (db : DB)
    (ob : VisitObservation) (vt : VisitTransition) (db' : DB)
    (v : Option Nat)
    (hvt : ob.visit_type = some vt)
    (herr : ob.is_error.getD false = false)
    (hok : apply_observation env db ob = (db', Except.ok v)) :
    ∃ db2 pi score,
      apply_obs_core env db ob = Except.ok (db2, pi, true, v) ∧
      env.frecency db2 pi.id ob.get_redirect_frecency_boost =
        Except.ok score ∧
      db' = db2.updatePage pi.id (fun p => { p with frecency := score }) ∧
      (∃ p' ∈ db'.pages, p'.id = pi.id) ∧
      (∀ q ∈ db'.pages, q.id = pi.id → q.frecency = score) := by
  obtain ⟨db2, pi, uf, hcore, hphase⟩ :=
    apply_observation_direct_ok_cases env db ob db' v
      (apply_observation_ok_direct env db ob db' v hok)
  obtain ⟨hufeq, g, extra, hpages, hkey, _, _, _, _, _, _, _, _, hmatch⟩ :=
    apply_obs_core_ok_shape env db ob db2 pi uf v hcore
  have huf : uf = true := by
    rw [hufeq, hvt, herr]
    rfl
  rcases hphase with ⟨huf0, _⟩ | ⟨_, score, hfr, hdb'⟩
  · rw [huf] at huf0; exact absurd huf0 (by simp)
  · rw [huf] at hcore
    have hmem2 : ∃ p' ∈ db2.pages, p'.id = pi.id := by
      cases hfp : find_page env db ob.url with
      | some p0 =>
        rw [hfp] at hmatch
        have hp0 : p0 ∈ db.pages := by
          unfold find_page at hfp
          exact List.mem_of_find?_eq_some hfp
        refine ⟨g p0, ?_, by rw [(hkey p0).2.2, ← hmatch.1]⟩
        rw [hpages]
        exact List.mem_append_left _ (List.mem_map_of_mem g hp0)
      | none =>
        rw [hfp] at hmatch
        obtain ⟨q, hextra, _, _, hqid, _⟩ := hmatch
        refine ⟨q, ?_, hqid⟩
        rw [hpages, hextra]
        exact List.mem_append_right _ (by simp)
    obtain ⟨p2, hp2, hp2id⟩ := hmem2
    refine ⟨db2, pi, score, hcore, hfr, hdb', ?_, ?_⟩
    · refine ⟨if p2.id = pi.id then { p2 with frecency := score } else p2, ?_, ?_⟩
      · rw [hdb', updatePage_pages]
        exact List.mem_map_of_mem _ hp2
      · rw [if_pos hp2id]
        exact hp2id
    · intro q hq hqid
      rw [hdb', updatePage_pages] at hq
      obtain ⟨r, hr, hrq⟩ := List.mem_map.mp hq
      by_cases hrid : r.id = pi.id
      · rw [if_pos hrid] at hrq
        rw [← hrq]
      · rw [if_neg hrid] at hrq
        rw [← hrq] at hqid
        exact absurd hqid hrid

/-- Witness for C2 at a concrete input: for a plain link visit on a fresh
store, the collaborator's score (101 for page rowid 1) is what the page
carries afterwards. -/
theorem claim_frecency_fresh_after_visit_witness :
    ∃ db2 pi score,
      apply_obs_core env0 db0 obVisit = Except.ok (db2, pi, true, some 1) ∧
      env0.frecency db2 pi.id obVisit.get_redirect_frecency_boost =
        Except.ok score ∧
      (apply_observation env0 db0 obVisit).1 =
        db2.updatePage pi.id (fun p => { p with frecency := score }) ∧
      (∃ p' ∈ (apply_observation env0 db0 obVisit).1.pages, p'.id = pi.id) ∧
      (∀ q ∈ (apply_observation env0 db0 obVisit).1.pages, q.id = pi.id →
        q.frecency = score) :=
  claim_frecency_fresh_after_visit env0 db0 obVisit VisitTransition.link
    (apply_observation env0 db0 obVisit).1 (some 1) rfl rfl (by decide)

/-- C4: the hidden flag is monotone: a page row is created with
`hidden = true`; a committed observation recording a non-policy-hidden visit
leaves the page for its url with `hidden = false`; and once the page
resolved for a url is not hidden, no later sequence of observations on that
url ever makes it hidden again. -/
theorem claim_hidden_monotone (env : Env) :
    (∀ db url db' row, new_page_info env db url = Except.ok (db', row) →
      row.hidden = true) ∧
    (∀ db ob vt db' v, ob.visit_type = some vt →
      ob.get_is_hidden = false →
      apply_observation env db ob = (db', Except.ok v) →
      ∃ p', find_page env db' ob.url = some p' ∧ p'.hidden = false) ∧
    (∀ db obs u p, (∀ ob ∈ obs, ob.url = u) →
      find_page env db u = some p → p.hidden = false →
      ∃ p', find_page env (apply_observations env db obs).1 u = some p' ∧
        p'.hidden = false) := by
  refine ⟨?_, ?_, ?_⟩
  · intro db url db' row h
    exact (new_page_info_ok env db url db' row h).2.2.2.2.2.2.1
  · intro db ob vt db' v hvt hnh hok
    obtain ⟨p', hf, _, hhid⟩ := find_page_target_after_ok env db ob db' v hok
    exact ⟨p', hf, hhid vt hvt hnh⟩
  · intro db obs u p _ hfind hh
    exact hidden_false_steps env db obs u p hfind hh

/-- Witness for C4 at a concrete input: after one committed link visit the
page is unhidden, and it stays unhidden across a further error visit and a
metadata-only observation. -/
theorem claim_hidden_monotone_witness :
    (∃ p', find_page env0 (apply_observation env0 db0 obVisit).1
      obVisit.url = some p' ∧ p'.hidden = false) ∧
    (∀ p, find_page env0 (apply_observation env0 db0 obVisit).1
        "https://e.com/" = some p → p.hidden = false →
      ∃ p', find_page env0 (apply_observations env0
        (apply_observation env0 db0 obVisit).1
        [obErrorVisit, obMeta]).1 "https://e.com/" = some p' ∧
        p'.hidden = false) :=
  ⟨(claim_hidden_monotone env0).2.1 db0 obVisit VisitTransition.link
      (apply_observation env0 db0 obVisit).1 (some 1) rfl rfl (by decide),
   fun p hf hh => (claim_hidden_monotone env0).2.2
     (apply_observation env0 db0 obVisit).1 [obErrorVisit, obMeta]
     "https://e.com/" p (by decide) hf hh⟩

/-- C6: over a fully-committed sequence of observations on one url, the page
resolved for that url ends with the title of the last observation that
carried one. -/
theorem claim_title_last_observed_wins (env : Env) (db : DB)
    (obs : List VisitObservation) (u t : String)
    (hurl : ∀ ob ∈ obs, ob.url = u)
    (hok : (apply_observations env db obs).2 = true)
    (hlast : (obs.filterMap (fun ob => ob.title)).getLast? = some t) :
    ∃ p', find_page env (apply_observations env db obs).1 u = some p' ∧
      p'.title = t :=
  title_last_wins_aux env obs u t db hurl hok hlast

/-- Witness for C6 at a concrete input: observing the same url twice with
titles "B" then "BB" leaves the page titled "BB". -/
theorem claim_title_last_observed_wins_witness :
    ∃ p', find_page env0 (apply_observations env0 db0
      [obVisit, obVisitSecond]).1 "https://e.com/" = some p' ∧
      p'.title = "BB" :=
  claim_title_last_observed_wins env0 db0 [obVisit, obVisitSecond]
    "https://e.com/" "BB" (by decide) (by decide) (by decide)

/-- C7: for every input list and every positive chunk bound, `get_visited`
returns a vector of the same length and order as the input whose entry at
each index is exactly whether some page row matches that url by hash and
exact string equality — duplicates and unknown urls included, independently
of how the list is split into chunks. -/
theorem claim_get_visited_spec (env : Env) (db : DB) (urls : List String)
    (csize : Nat) (h : 0 < csize) :
    (get_visited env db urls csize).length = urls.length ∧
    ∀ i : Nat, (get_visited env db urls csize)[i]? =
      (urls[i]?).map (fun u => page_match env db u) := by
  rw [get_visited_eq_mark env db urls csize h]
  constructor
  · rw [mark_chunk_length, List.length_replicate]
  · intro i
    cases hu : urls[i]? with
    | some u =>
      have hi : i < urls.length := by
        by_contra hcon
        rw [List.getElem?_eq_none (Nat.le_of_not_lt hcon)] at hu
        exact absurd hu (by simp)
      have hat := mark_chunk_getElem_at env db urls 0 i
        (List.replicate urls.length false) u hu
      rw [Nat.zero_add] at hat
      rw [hat, List.getElem?_replicate, if_pos hi]
      by_cases hpm : page_match env db u
      · rw [if_pos hpm]
        simp [hpm]
      · rw [if_neg hpm]
        simp [Bool.eq_false_iff.mpr hpm]
    | none =>
      have hi : urls.length ≤ i := by
        by_contra hcon
        rw [List.getElem?_eq_getElem (Nat.lt_of_not_le hcon)] at hu
        exact absurd hu (by simp)
      rw [mark_chunk_getElem_ge env db urls 0 i _ (by omega),
        List.getElem?_eq_none (by simpa using hi)]
      rfl

/-- Witness for C7 at a concrete input: a duplicate-containing three-url
query with chunk bound 2 against a one-page store. -/
theorem claim_get_visited_spec_witness :
    (get_visited env0 (apply_observation env0 db0 obVisit).1
      ["https://e.com/", "https://other.example/", "https://e.com/"]
      2).length = 3 ∧
    (get_visited env0 (apply_observation env0 db0 obVisit).1
      ["https://e.com/", "https://other.example/", "https://e.com/"]
      2)[2]? = some true := by
  have hc := claim_get_visited_spec env0 (apply_observation env0 db0 obVisit).1
    ["https://e.com/", "https://other.example/", "https://e.com/"] 2
    (by decide)
  refine ⟨hc.1, ?_⟩
  rw [hc.2 2]
  decide

/-- C8: `get_visited_urls` returns exactly the urls of the pages having at
least one visit with date in the inclusive range — counting only local
visits unless `include_remote` — and the urls are distinct whenever the
store's page urls are. -/
theorem claim_get_visited_urls_spec (db : DB) (start_ end_ : Nat)
    (ir : Bool) :
    (∀ url, url ∈ get_visited_urls db start_ end_ ir ↔
      ∃ p ∈ db.pages, p.url = url ∧ ∃ vv ∈ db.visits,
        vv.place_id = p.id ∧ start_ ≤ vv.visit_date ∧
        vv.visit_date ≤ end_ ∧ (ir = true ∨ vv.is_local = true)) ∧
    ((db.pages.map (fun p => p.url)).Nodup →
      (get_visited_urls db start_ end_ ir).Nodup) := by
  constructor
  · intro url
    simp only [get_visited_urls, List.mem_map, List.mem_filter,
      List.any_eq_true, visit_in_range, Bool.and_eq_true, beq_iff_eq,
      decide_eq_true_eq, Bool.or_eq_true]
    constructor
    · rintro ⟨p, ⟨hp, vv, hv, ⟨hpl, hd1, hd2⟩, hloc⟩, hurl⟩
      exact ⟨p, hp, hurl, vv, hv, hpl, hd1, hd2, hloc⟩
    · rintro ⟨p, hp, hurl, vv, hv, hpl, hd1, hd2, hloc⟩
      exact ⟨p, ⟨hp, vv, hv, ⟨hpl, hd1, hd2⟩, hloc⟩, hurl⟩
  · intro hnd
    unfold get_visited_urls
    exact hnd.sublist ((List.filter_sublist db.pages).map (fun p => p.url))

/-- Witness for C8 at a concrete input: a store whose only in-range visit is
remote — the url is excluded without `include_remote` and included with it,
and both result lists are duplicate-free. -/
theorem claim_get_visited_urls_spec_witness :
    ("https://e.com/" ∈ get_visited_urls
      (apply_observation env0 db0 obRemoteVisit).1 0 2000 true) ∧
    ("https://e.com/" ∉ get_visited_urls
      (apply_observation env0 db0 obRemoteVisit).1 0 2000 false) ∧
    (get_visited_urls (apply_observation env0 db0 obRemoteVisit).1
      0 2000 false).Nodup := by
  refine ⟨?_, ?_, ?_⟩
  · exact ((claim_get_visited_urls_spec
      (apply_observation env0 db0 obRemoteVisit).1 0 2000 true).1
      "https://e.com/").mpr (by decide)
  · intro hmem
    have := ((claim_get_visited_urls_spec
      (apply_observation env0 db0 obRemoteVisit).1 0 2000 false).1
      "https://e.com/").mp hmem
    revert this
    decide
  · exact (claim_get_visited_urls_spec
      (apply_observation env0 db0 obRemoteVisit).1 0 2000 false).2
      (by decide)

/-- C9 counterexample: with a failing guid generator, page creation aborts
through the `.expect` in `new_page_info` — a process abort, not a typed
`CollaboratorFailure` error value returned to the caller; no page row is
inserted (the store is unchanged). -/
theorem claim_guid_failure_counterexample :
    apply_observation envGuidFail db0 obVisit =
      (db0, Except.error (Failure.abort guidExpectMsg)) ∧
    (apply_observation envGuidFail db0 obVisit).2 ≠
      Except.error (Failure.err PlacesErrorKind.collaboratorFailure) :=
  ⟨by decide, by decide⟩

/-- C9 amended: when the guid collaborator fails while a page is being
created, the call aborts via the `.expect` in `new_page_info` (with its
literal message) rather than propagating a typed error, and no page row is
inserted — the store is returned unchanged. -/
theorem claim_guid_failure_abort (env : Env) (db : DB)
    (ob : VisitObservation)
    (hfind : find_page env db ob.url = none)
    (hguid : env.guids db.guids_used = none) :
    apply_observation env db ob =
      (db, Except.error (Failure.abort guidExpectMsg)) := by
  have hfetch : fetch_page_info env db ob.url = Except.ok none := by
    unfold fetch_page_info
    rw [hfind]
  have hnew : new_page_info env db ob.url =
      Except.error (Failure.abort guidExpectMsg) := by
    unfold new_page_info
    rw [hguid]
  have hcore : apply_obs_core env db ob =
      Except.error (Failure.abort guidExpectMsg) := by
    simp only [apply_obs_core, hfetch, hnew]
  have hdirect : apply_observation_direct env db ob =
      (db, Except.error (Failure.abort guidExpectMsg)) := by
    simp only [apply_observation_direct, hcore]
  simp only [apply_observation, hdirect]

/-- Witness for the amended C9 at a concrete input. -/
theorem claim_guid_failure_abort_witness :
    apply_observation envGuidFail db0 obMeta =
      (db0, Except.error (Failure.abort guidExpectMsg)) :=
  claim_guid_failure_abort envGuidFail db0 obMeta (by decide) (by decide)

/-- C10 counterexample: a metadata-only observation commits a page with zero
visit rows; the next `apply_observation` on the same url then hits the
`.expect("No visit id!")` in `FetchedPageInfo::from_row` — an internal
assertion abort, not a normal `Ok`/`Err` return. -/
theorem claim_total_counterexample :
    (apply_observation env0 db0 obMeta).2 = Except.ok none ∧
    (apply_observation env0 (apply_observation env0 db0 obMeta).1
      obVisit).2 = Except.error (Failure.abort "No visit id!") :=
  ⟨by decide, by decide⟩

/-- C10 amended: whenever the lookup finds a page row but no visit row
matches its last-visit dates (in particular a page created by a
metadata-only observation, which has zero visit rows), `apply_observation`
aborts on the `last_visit_id` expect with its literal message and leaves the
store unchanged; the abort is reachable. -/
theorem claim_fetch_abort_on_visitless_page (env : Env) (db : DB)
    (ob : VisitObservation) (p : Page)
    (hfind : find_page env db ob.url = some p)
    (hlv : last_visit_id_of db p = none) :
    apply_observation env db ob =
      (db, Except.error (Failure.abort "No visit id!")) := by
  have hfetch : fetch_page_info env db ob.url =
      Except.error (Failure.abort "No visit id!") := by
    unfold fetch_page_info
    rw [hfind]
    simp only [hlv]
  have hcore : apply_obs_core env db ob =
      Except.error (Failure.abort "No visit id!") := by
    simp only [apply_obs_core, hfetch]
  have hdirect : apply_observation_direct env db ob =
      (db, Except.error (Failure.abort "No visit id!")) := by
    simp only [apply_observation_direct, hcore]
  simp only [apply_observation, hdirect]

/-- Witness for the amended C10 at a concrete input. -/
theorem claim_fetch_abort_on_visitless_page_witness :
    apply_observation env0 (apply_observation env0 db0 obMeta).1 obVisit =
      ((apply_observation env0 db0 obMeta).1,
       Except.error (Failure.abort "No visit id!")) := by
  refine claim_fetch_abort_on_visitless_page env0
    (apply_observation env0 db0 obMeta).1 obVisit ?p ?_ ?_
  case p => exact
    { id := 1, guid := "g", url := "https://e.com/", url_hash := 14,
      title := "A", hidden := true, typed := 0, frecency := -1,
      visit_count_local := 0, visit_count_remote := 0,
      last_visit_date_local := 0, last_visit_date_remote := 0 }
  · decide
  · decide

end Places
